import Mathlib

/-!
Verification development for the stockRacer paper-trading arena.

The ledger (`TradingEngine` in `trading-engine.js`), the memory store
(`AgentMemory` in `agent-memory.js`) and the arena controller
(`AgentManager` in `agents.js`) are shallowly embedded below.  JavaScript
numbers are modelled as exact rationals (`ℚ`); `Math.round` is Mathlib's
`round` (round half towards `+∞`, matching `Math.round` on all inputs).
JavaScript objects used as string-keyed maps are modelled as association
lists with JavaScript object semantics: assigning to an existing key updates
it in place, assigning to a fresh key appends, `delete` removes the entry.
SQLite tables are lists of rows in insertion order (the order of both the
autoincrement ids and the timestamps, which are therefore represented
positionally).
-/

namespace StockRacer

/-- The per-position record `{ shares, avgCost }` stored in
`portfolio.positions[symbol]`. -/
structure Position where
  shares : ℚ
  avgCost : ℚ
  deriving DecidableEq, Repr

/-- A portfolio as created by `initializePortfolio`: `cash`, the `positions`
map, `startingValue`, and the snapshot `history` (timestamps are irrelevant
to the claims, so a history entry is just its `value`). -/
structure Portfolio where
  cash : ℚ
  positions : List (String × Position)
  startingValue : ℚ
  history : List ℚ
  deriving DecidableEq, Repr

/-- A trade record as pushed onto `this.trades` (the random `id` and the
`timestamp` carry no information for the claims and are omitted). -/
structure Trade where
  agentId : String
  side : String
  symbol : String
  shares : ℚ
  price : ℚ
  total : ℚ
  pnl : Option ℚ
  deriving DecidableEq, Repr

/-- The mutable state of the `TradingEngine` class: the `portfolios` object
and the `trades` array. -/
structure TradingEngine where
  portfolios : List (String × Portfolio)
  trades : List Trade
  deriving DecidableEq, Repr

/-- Lookup `obj[k]` in a JavaScript object modelled as an association list. -/
def lookupKey (k : String) : List (String × α) → Option α
  | [] => none
  | (k', v) :: rest => if k' = k then some v else lookupKey k rest

/-- Assignment `obj[k] = v` with JavaScript object semantics: an existing key
is updated in place, a fresh key is appended at the end. -/
def setKey (k : String) (v : α) : List (String × α) → List (String × α)
  | [] => [(k, v)]
  | (k', v') :: rest => if k' = k then (k, v) :: rest else (k', v') :: setKey k v rest

/-- Deletion `delete obj[k]`. -/
def eraseKey (k : String) : List (String × α) → List (String × α)
  | [] => []
  | (k', v') :: rest => if k' = k then rest else (k', v') :: eraseKey k rest

/-- Rounding to 4 decimal places, `Math.round(x * 10000) / 10000`. -/
def round4 (x : ℚ) : ℚ := (round (x * 10000) : ℤ) / 10000

/-- Outcome of `executeBuy` / `executeSell`: the thrown `Portfolio not found`
error, a `{ success: false, error }` return, or a `{ success: true, trade }`
return (for sells also carrying the top-level `pnl` field). -/
inductive TradeOutcome where
  | portfolioNotFound
  | failure (error : String)
  | success (trade : Trade) (pnl : Option ℚ)
  deriving DecidableEq, Repr

/-- Whether the outcome is a `{ success: true }` return. -/
def TradeOutcome.isSuccess : TradeOutcome → Bool
  | .success _ _ => true
  | _ => false

/-- `initializePortfolio(agentId, startingCash = 25)`: creates the portfolio
only if absent (idempotent). -/
def initializePortfolio (eng : TradingEngine) (agentId : String)
    (startingCash : ℚ) : TradingEngine :=
  match lookupKey agentId eng.portfolios with
  | some _ => eng
  | none =>
      { eng with
        portfolios := setKey agentId
          { cash := startingCash, positions := [],
            startingValue := startingCash, history := [startingCash] }
          eng.portfolios }

/-- `executeBuy(agentId, symbol, shares, currentPrice)`.  Shares are rounded
to 4 decimal places; a non-positive rounded amount is rejected, then the cost
(plus the always-zero commission) is checked against cash; on success cash is
debited, the position is merged at weighted-average cost and a BUY trade is
recorded. -/
def executeBuy (eng : TradingEngine) (agentId symbol : String)
    (shares currentPrice : ℚ) : TradeOutcome × TradingEngine :=
  match lookupKey agentId eng.portfolios with
  | none => (.portfolioNotFound, eng)
  | some portfolio =>
      let shares := round4 shares
      if shares ≤ 0 then (.failure "Invalid share amount", eng)
      else
        let cost := shares * currentPrice
        let commission : ℚ := 0
        if portfolio.cash < cost + commission then
          (.failure "Insufficient funds", eng)
        else
          let position := (lookupKey symbol portfolio.positions).getD
            { shares := 0, avgCost := 0 }
          let totalShares := position.shares + shares
          let totalCost := position.shares * position.avgCost + cost
          let position' : Position :=
            { shares := totalShares, avgCost := totalCost / totalShares }
          let portfolio' : Portfolio :=
            { portfolio with
              cash := portfolio.cash - (cost + commission),
              positions := setKey symbol position' portfolio.positions }
          let trade : Trade :=
            { agentId := agentId, side := "BUY", symbol := symbol,
              shares := shares, price := currentPrice, total := cost,
              pnl := none }
          (.success trade none,
            { portfolios := setKey agentId portfolio' eng.portfolios,
              trades := eng.trades ++ [trade] })

/-- `executeSell(agentId, symbol, shares, currentPrice)`.  Rejected only when
there is no position or `position.shares < shares`; on success cash is
credited with the proceeds, the share count is decremented (the entry is
deleted when it reaches exactly 0), and a SELL trade carrying
`pnl = proceeds - shares * avgCost` is recorded. -/
def executeSell (eng : TradingEngine) (agentId symbol : String)
    (shares currentPrice : ℚ) : TradeOutcome × TradingEngine :=
  match lookupKey agentId eng.portfolios with
  | none => (.portfolioNotFound, eng)
  | some portfolio =>
      match lookupKey symbol portfolio.positions with
      | none => (.failure "Insufficient shares", eng)
      | some position =>
          if position.shares < shares then (.failure "Insufficient shares", eng)
          else
            let proceeds := shares * currentPrice
            let commission : ℚ := 0
            let newShares := position.shares - shares
            let positions' :=
              if newShares = 0 then eraseKey symbol portfolio.positions
              else setKey symbol { position with shares := newShares }
                portfolio.positions
            let costBasis := shares * position.avgCost
            let pnl := proceeds - costBasis
            let portfolio' : Portfolio :=
              { portfolio with
                cash := portfolio.cash + (proceeds - commission),
                positions := positions' }
            let trade : Trade :=
              { agentId := agentId, side := "SELL", symbol := symbol,
                shares := shares, price := currentPrice, total := proceeds,
                pnl := some pnl }
            (.success trade (some pnl),
              { portfolios := setKey agentId portfolio' eng.portfolios,
                trades := eng.trades ++ [trade] })

/-- `calculatePortfolioValue(agentId, marketData)`: cash plus, per position,
`shares * quote.price` when `getQuote` succeeds and `shares * avgCost` when
it throws; `0` for a missing portfolio.  The quote source is modelled as a
partial map `quotes : String → Option ℚ` (`none` = the lookup throws). -/
def calculatePortfolioValue (eng : TradingEngine) (agentId : String)
    (quotes : String → Option ℚ) : ℚ :=
  match lookupKey agentId eng.portfolios with
  | none => 0
  | some portfolio =>
      portfolio.positions.foldl
        (fun totalValue entry =>
          totalValue + entry.2.shares *
            (match quotes entry.1 with
             | some price => price
             | none => entry.2.avgCost))
        portfolio.cash

/-- The position held by `agentId` in `symbol`, if any. -/
def positionOf (eng : TradingEngine) (agentId symbol : String) : Option Position :=
  (lookupKey agentId eng.portfolios).bind (fun p => lookupKey symbol p.positions)

/-- The `pnl` carried by a trade outcome (`none` for failures and buys). -/
def outcomePnl : TradeOutcome → Option ℚ
  | .success _ pnl => pnl
  | _ => none

/-- A `TradingEngine` with no portfolios and no trades, the state of a fresh
deployment (both data files absent). -/
def emptyEngine : TradingEngine := { portfolios := [], trades := [] }

/-- The spec scenario start state: one freshly initialized portfolio with
`cash = 25` under key `"agent"`. -/
def scenarioEngine : TradingEngine := initializePortfolio emptyEngine "agent" 25

/-- The scenario buy: 1 share of AAPL at $20. -/
def scenarioBuy : TradeOutcome × TradingEngine :=
  executeBuy scenarioEngine "agent" "AAPL" 1 20

/-- The scenario sell: that 1 share of AAPL at $25. -/
def scenarioSell : TradeOutcome × TradingEngine :=
  executeSell scenarioBuy.2 "agent" "AAPL" 1 25

/-- A two-position portfolio used to exercise the valuation fallback. -/
def valuationPortfolio : Portfolio :=
  { cash := 100,
    positions := [("A", { shares := 2, avgCost := 3 }),
                  ("B", { shares := 5, avgCost := 7 })],
    startingValue := 100, history := [100] }

/-- An engine holding only `valuationPortfolio` under key `"a"`. -/
def valuationEngine : TradingEngine :=
  { portfolios := [("a", valuationPortfolio)], trades := [] }

/-- The engine after buying 10 shares of X at $10 from a fresh $1000 account:
it holds the position `{shares: 10, avgCost: 10}`. -/
def wapEngine : TradingEngine :=
  (executeBuy (initializePortfolio emptyEngine "w" 1000) "w" "X" 10 10).2

/-- A fresh $25 portfolio under key `"t"`. -/
def taxEngine : TradingEngine := initializePortfolio emptyEngine "t" 25

/-- The engine after buying 2 shares of X at $10 from a fresh $100 account
under key `"b"`: cash 80 and position `{shares: 2, avgCost: 10}`. -/
def nqvEngine : TradingEngine :=
  (executeBuy (initializePortfolio emptyEngine "b" 100) "b" "X" 2 10).2

/-- One call in a sequence of trades against the engine. -/
inductive TradeOp where
  | buy (agentId symbol : String) (shares price : ℚ)
  | sell (agentId symbol : String) (shares price : ℚ)
  deriving DecidableEq, Repr

/-- The state reached after one call (the returned result is discarded). -/
def applyOp (eng : TradingEngine) : TradeOp → TradingEngine
  | .buy agentId symbol shares price => (executeBuy eng agentId symbol shares price).2
  | .sell agentId symbol shares price => (executeSell eng agentId symbol shares price).2

/-- The state reached after a sequence of calls. -/
def applyOps (eng : TradingEngine) (ops : List TradeOp) : TradingEngine :=
  ops.foldl applyOp eng

/-- Non-negativity of one portfolio: cash ≥ 0 and every position's shares ≥ 0. -/
def Portfolio.Nonneg (p : Portfolio) : Prop :=
  0 ≤ p.cash ∧ ∀ e ∈ p.positions, 0 ≤ e.2.shares

/-- Non-negativity across the whole engine. -/
def TradingEngine.Nonneg (eng : TradingEngine) : Prop :=
  ∀ e ∈ eng.portfolios, e.2.Nonneg

/-- Arguments under which a call cannot create money out of nothing: a sell
must be given nonnegative shares and a nonnegative price (buys are safe with
any arguments — the quantity gate and the funds check protect them). -/
def TradeOp.Benign : TradeOp → Prop
  | .buy _ _ _ _ => True
  | .sell _ _ shares price => 0 ≤ shares ∧ 0 ≤ price

/-- A legitimate buy followed by a sell with a negative share amount. -/
def negSellOps : List TradeOp :=
  [.buy "agent" "AAPL" 1 20, .sell "agent" "AAPL" (-10) 10]

/-- The engine reached by running `negSellOps` on the fresh $25 account. -/
def negSellEngine : TradingEngine := applyOps scenarioEngine negSellOps

/-- The portfolio `negSellOps` produces: cash −95, 11 shares of AAPL. -/
def negSellPortfolio : Portfolio :=
  { cash := -95, positions := [("AAPL", { shares := 11, avgCost := 20 })],
    startingValue := 25, history := [25] }

/-- The benign call sequence used to witness the amended C1. -/
def benignOps : List TradeOp :=
  [.buy "agent" "AAPL" 1 20, .sell "agent" "AAPL" 1 25]

/-- An account with $90 cash already holding 1 share of SYM at avgCost 10. -/
def priorPositionEngine : TradingEngine :=
  (executeBuy (initializePortfolio emptyEngine "c" 100) "c" "SYM" 1 10).2

/-- Buy 1 SYM @ $20 then sell 1 SYM @ $20 on `priorPositionEngine`. -/
def priorPositionRoundtrip : TradeOutcome × TradingEngine :=
  executeSell (executeBuy priorPositionEngine "c" "SYM" 1 20).2 "c" "SYM" 1 20

/-- A fresh $50 account under key `"r"`. -/
def roundtripEngine : TradingEngine := initializePortfolio emptyEngine "r" 50

/-- The per-symbol technical analysis fields the position review reads
(`analyses[symbol]` may be absent, hence `Option` at use sites). -/
structure Analysis where
  trend : String
  rsi : ℚ
  signal : ℚ
  deriving DecidableEq, Repr

/-- The strategy-specific sell thresholds of `checkPositions` (the `switch`
on `agent.strategy`).  Each JavaScript `if` that sets `shouldSell = true`
contributes one disjunct; `analysis && …` guards become `Option.elim`.  The
meme case's `Math.random() > 0.5` draw is the `memeRand` parameter. -/
def strategyShouldSell (strategy : String) (pnlPercent : ℚ)
    (analysis : Option Analysis) (memeRand : ℚ) : Bool :=
  match strategy with
  | "scalp" => decide (pnlPercent > 3/2) || decide (pnlPercent < -(3/2))
  | "momentum" =>
      decide (pnlPercent < -3) ||
      analysis.elim false (fun a => decide (a.trend = "bearish") && decide (pnlPercent < 0))
  | "value" => decide (pnlPercent > 8) || decide (pnlPercent < -7)
  | "hodl" => decide (pnlPercent < -15)
  | "meme" =>
      (decide (pnlPercent < -5) && decide (memeRand > 1/2)) || decide (pnlPercent > 10)
  | "growth" =>
      decide (pnlPercent < -8) || analysis.elim false (fun a => decide (a.rsi > 80))
  | "technical" =>
      analysis.elim false (fun a => decide (a.rsi > 70) && decide (pnlPercent > 0)) ||
      analysis.elim false (fun a => decide (a.signal < -30)) ||
      decide (pnlPercent < -5)
  | _ => false

/-- The full `shouldSell` decision: the strategy thresholds, then the memory
check `if (sentiment < -0.5 && pnlPercent < 0) shouldSell = true`. -/
def checkPositionShouldSell (strategy : String) (pnlPercent sentiment : ℚ)
    (analysis : Option Analysis) (memeRand : ℚ) : Bool :=
  strategyShouldSell strategy pnlPercent analysis memeRand ||
    (decide (sentiment < -(1/2)) && decide (pnlPercent < 0))

/-- One iteration of the `checkPositions` loop for a held `(symbol, position)`
pair: skipped when the symbol has no quote, otherwise a sell of the ENTIRE
position (`position.shares`) at the current price exactly when the decision
fires and shares are positive.  The loop body only ever calls `executeSell`:
a returned intent is always a sell, never a buy. -/
def checkPositionAction (strategy symbol : String) (position : Position)
    (quote : Option ℚ) (analysis : Option Analysis) (memeRand sentiment : ℚ) :
    Option (String × ℚ × ℚ) :=
  match quote with
  | none => none
  | some currentPrice =>
      let pnlPercent := (currentPrice - position.avgCost) / position.avgCost * 100
      if checkPositionShouldSell strategy pnlPercent sentiment analysis memeRand
          && decide (position.shares > 0) then
        some (symbol, position.shares, currentPrice)
      else none

/-- The whole position-review pass: the sell intents issued over all held
positions (quotes, analyses, per-symbol random draws and remembered
sentiments supplied as maps). -/
def checkPositions (strategy : String) (portfolio : Portfolio)
    (quotes : String → Option ℚ) (analyses : String → Option Analysis)
    (memeRands sentiments : String → ℚ) : List (String × ℚ × ℚ) :=
  portfolio.positions.filterMap (fun e =>
    checkPositionAction strategy e.1 e.2 (quotes e.1) (analyses e.1)
      (memeRands e.1) (sentiments e.1))

/-- A held 3-share position of X at avgCost 10 in an otherwise empty
portfolio, for exercising the position review. -/
def reviewPortfolio : Portfolio :=
  { cash := 0, positions := [("X", { shares := 3, avgCost := 10 })],
    startingValue := 25, history := [25] }

/-- The template fields of `AGENT_TEMPLATES` the lifecycle reads (the
presentation strings — personality, avatar, color — and the trading
preference lists are not consumed by the elimination cycle and are
omitted). -/
structure AgentTemplate where
  name : String
  strategy : String
  deriving DecidableEq, Repr

/-- The fixed roster of 7 agent templates, keyed by template id. -/
def AGENT_TEMPLATES : List (String × AgentTemplate) :=
  [("warren", { name := "Warren", strategy := "value" }),
   ("elon", { name := "Elon", strategy := "meme" }),
   ("cathy", { name := "Cathy", strategy := "growth" }),
   ("gordon", { name := "Gordon", strategy := "momentum" }),
   ("diamond", { name := "Diamond", strategy := "hodl" }),
   ("paperhands", { name := "Paperhands", strategy := "scalp" }),
   ("quant", { name := "Quant", strategy := "technical" })]

/-- An agent record as stored in `this.agents` (creation timestamp omitted;
`active` is `status === 'active'`). -/
structure AgentRec where
  name : String
  strategy : String
  generation : ℕ
  active : Bool
  kills : ℕ
  deriving DecidableEq, Repr

/-- A row of the `trade_outcomes` table (`agent-memory.js`, embedded in
`README.md`).  The autoincrement `id` and the `created_at` timestamp are
represented positionally: each table keeps its rows in insertion order, the
order of both the autoincrement key and the timestamps.  Nullable columns are
`Option`. -/
structure TradeOutcomeRow where
  agentId : String
  symbol : String
  action : String
  entryPrice : Option ℚ
  exitPrice : Option ℚ
  pnl : Option ℚ
  pnlPercent : Option ℚ
  holdDurationHours : Option ℚ
  marketCondition : Option String
  reason : Option String
  lesson : Option String
  deriving DecidableEq, Repr

/-- A row of the `market_observations` table. -/
structure ObservationRow where
  agentId : String
  symbol : Option String
  observation : String
  confidence : ℚ
  validated : Bool
  deriving DecidableEq, Repr

/-- A row of the `agent_beliefs` table; `updateBelief` stores
`symbol || '_general'`, so the symbol column is a plain string, and the row
is unique per `(agent_id, belief_type, symbol)`. -/
structure BeliefRow where
  agentId : String
  beliefType : String
  symbol : String
  value : Option ℚ
  note : Option String
  deriving DecidableEq, Repr

/-- A row of the `daily_reflections` table, unique per `(agent_id, date)`
with `date` a `YYYY-MM-DD` string. -/
structure ReflectionRow where
  agentId : String
  date : String
  portfolioValue : Option ℚ
  tradesMade : Option ℕ
  reflection : Option String
  mood : Option String
  strategyAdjustment : Option String
  deriving DecidableEq, Repr

/-- The SQLite-backed `AgentMemory` store: its four tables, rows in
insertion order. -/
structure AgentMemory where
  tradeOutcomes : List TradeOutcomeRow
  observations : List ObservationRow
  beliefs : List BeliefRow
  reflections : List ReflectionRow
  deriving DecidableEq, Repr

/-- SQL `SUM` over a nullable numeric column: `NULL`s are skipped and the sum
of zero rows (or of only `NULL`s) is `NULL`. -/
def sqlSum (xs : List (Option ℚ)) : Option ℚ :=
  let vs := xs.filterMap id
  if vs.length = 0 then none else some vs.sum

/-- SQL `AVG` over a nullable numeric column: `NULL`s are skipped and the
average of no non-`NULL` values is `NULL`. -/
def sqlAvg (xs : List (Option ℚ)) : Option ℚ :=
  let vs := xs.filterMap id
  if vs.length = 0 then none else some (vs.sum / (vs.length : ℚ))

/-- Whether a nullable `pnl` satisfies `pnl > 0` (SQL three-valued logic:
`NULL > 0` is not true, so the `CASE WHEN pnl > 0` branches count only
non-`NULL` positive values). -/
def pnlPos (pnl : Option ℚ) : Bool := pnl.any (fun v => decide (0 < v))

/-- Whether a nullable `pnl` satisfies `pnl < 0`. -/
def pnlNeg (pnl : Option ℚ) : Bool := pnl.any (fun v => decide (v < 0))

/-- Stable insertion step for an `ORDER BY` sort: `before y x` means `y`
must come strictly before `x` in the output, so equal keys keep their
incoming order. -/
def insertSorted (before : α → α → Bool) (x : α) : List α → List α
  | [] => [x]
  | y :: ys => if before y x then y :: insertSorted before x ys else x :: y :: ys

/-- `ORDER BY` over a whole list. -/
def sortBySql (before : α → α → Bool) (l : List α) : List α :=
  l.foldr (insertSorted before) []

/-- `ORDER BY col DESC` on a nullable column: in SQLite `NULL` is smallest,
so it sorts last under `DESC`. -/
def sqlDescNullsLast (a b : Option ℚ) : Bool :=
  match a, b with
  | some x, some y => decide (y < x)
  | some _, none => true
  | none, _ => false

/-- `ORDER BY col ASC` on a nullable column: `NULL` sorts first. -/
def sqlAscNullsFirst (a b : Option ℚ) : Bool :=
  match a, b with
  | none, some _ => true
  | some x, some y => decide (x < y)
  | _, _ => false

/-- The row `getWinRate` returns: the six aggregate columns (`SUM` over zero
rows is `NULL`) plus the derived `winRate`. -/
structure WinRateRow where
  total : ℕ
  wins : Option ℕ
  losses : Option ℕ
  avgReturn : Option ℚ
  avgWin : Option ℚ
  avgLoss : Option ℚ
  winRate : ℚ
  deriving DecidableEq, Repr

/-- `getWinRate(agentId)` (the `symbol = null` form `getMemorySummary`
uses): aggregates over the agent's `trade_outcomes`. -/
def AgentMemory.getWinRate (m : AgentMemory) (agentId : String) : WinRateRow :=
  let rows := m.tradeOutcomes.filter (fun r => r.agentId = agentId)
  let total := rows.length
  let wins := (rows.filter (fun r => pnlPos r.pnl)).length
  { total := total,
    wins := if total = 0 then none else some wins,
    losses := if total = 0 then none else
      some ((rows.filter (fun r => pnlNeg r.pnl)).length),
    avgReturn := sqlAvg (rows.map (fun r => r.pnlPercent)),
    avgWin := sqlAvg (rows.map (fun r => if pnlPos r.pnl then r.pnlPercent else none)),
    avgLoss := sqlAvg (rows.map (fun r => if pnlNeg r.pnl then r.pnlPercent else none)),
    winRate := if 0 < total then ((wins : ℚ) / (total : ℚ)) * 100 else 0 }

/-- `getTradeHistory(agentId, symbol, limit)`: the agent's outcomes, most
recent (`created_at DESC`) first, limited. -/
def AgentMemory.getTradeHistory (m : AgentMemory) (agentId : String)
    (symbol : Option String) (limit : ℕ) : List TradeOutcomeRow :=
  match symbol with
  | some s =>
      ((m.tradeOutcomes.filter
        (fun r => r.agentId = agentId ∧ r.symbol = s)).reverse).take limit
  | none =>
      ((m.tradeOutcomes.filter (fun r => r.agentId = agentId)).reverse).take limit

/-- `getBeliefs(agentId)` (the `beliefType = null` form): the agent's belief
rows, most recently updated first (`updated_at DESC`; timestamp ties at
second granularity are unspecified in SQL, the model uses row order). -/
def AgentMemory.getBeliefs (m : AgentMemory) (agentId : String) : List BeliefRow :=
  (m.beliefs.filter (fun r => r.agentId = agentId)).reverse

/-- `getStockSentiment(agentId, symbol)`: the unique `stock_sentiment`
belief's value, `0` when absent (a `NULL` value column also reads as no
sentiment, matching how the JavaScript value is consumed). -/
def AgentMemory.getStockSentiment (m : AgentMemory) (agentId symbol : String) : ℚ :=
  match (m.beliefs.filter (fun r =>
      r.agentId = agentId ∧ r.beliefType = "stock_sentiment"
        ∧ r.symbol = symbol)).head? with
  | some b => b.value.getD 0
  | none => 0

/-- `getReflections(agentId, limit)`: the agent's reflections by calendar
date descending (dates are unique per agent, so the order is total). -/
def AgentMemory.getReflections (m : AgentMemory) (agentId : String)
    (limit : ℕ) : List ReflectionRow :=
  (sortBySql (fun y x => decide (x.date < y.date))
    (m.reflections.filter (fun r => r.agentId = agentId))).take limit

/-- One row of `getBestStocks`: per-symbol aggregates with the `wins`
column. -/
structure BestStockRow where
  symbol : String
  trades : ℕ
  avgReturn : Option ℚ
  totalPnl : Option ℚ
  wins : ℕ
  deriving DecidableEq, Repr

/-- One row of `getWorstStocks`: per-symbol aggregates with the `losses`
column. -/
structure WorstStockRow where
  symbol : String
  trades : ℕ
  avgReturn : Option ℚ
  totalPnl : Option ℚ
  losses : ℕ
  deriving DecidableEq, Repr

/-- The symbols of a row list in first-occurrence order (SQL leaves the
`GROUP BY` group order unspecified; the final `ORDER BY avg_return` decides
everything except ties, which the model breaks by first occurrence). -/
def groupSymbols (rows : List TradeOutcomeRow) : List String :=
  rows.foldl (fun acc r => if r.symbol ∈ acc then acc else acc ++ [r.symbol]) []

/-- `getBestStocks(agentId, limit)`: per-symbol groups with at least 2
trades, by average return descending. -/
def AgentMemory.getBestStocks (m : AgentMemory) (agentId : String)
    (limit : ℕ) : List BestStockRow :=
  let rows := m.tradeOutcomes.filter (fun r => r.agentId = agentId)
  let groups := (groupSymbols rows).map (fun s =>
    let g := rows.filter (fun r => r.symbol = s)
    ({ symbol := s, trades := g.length,
       avgReturn := sqlAvg (g.map (fun r => r.pnlPercent)),
       totalPnl := sqlSum (g.map (fun r => r.pnl)),
       wins := (g.filter (fun r => pnlPos r.pnl)).length } : BestStockRow))
  (sortBySql (fun y x => sqlDescNullsLast y.avgReturn x.avgReturn)
    (groups.filter (fun g => 2 ≤ g.trades))).take limit

/-- `getWorstStocks(agentId, limit)`: per-symbol groups with at least 2
trades, by average return ascending. -/
def AgentMemory.getWorstStocks (m : AgentMemory) (agentId : String)
    (limit : ℕ) : List WorstStockRow :=
  let rows := m.tradeOutcomes.filter (fun r => r.agentId = agentId)
  let groups := (groupSymbols rows).map (fun s =>
    let g := rows.filter (fun r => r.symbol = s)
    ({ symbol := s, trades := g.length,
       avgReturn := sqlAvg (g.map (fun r => r.pnlPercent)),
       totalPnl := sqlSum (g.map (fun r => r.pnl)),
       losses := (g.filter (fun r => pnlNeg r.pnl)).length } : WorstStockRow))
  (sortBySql (fun y x => sqlAscNullsFirst y.avgReturn x.avgReturn)
    (groups.filter (fun g => 2 ≤ g.trades))).take limit

/-- The composite object `getMemorySummary(agentId)` returns. -/
structure MemorySummary where
  winRate : WinRateRow
  bestStocks : List BestStockRow
  worstStocks : List WorstStockRow
  recentTrades : List TradeOutcomeRow
  beliefs : List BeliefRow
  reflections : List ReflectionRow
  deriving DecidableEq, Repr

/-- `getMemorySummary(agentId)`: the six reads bundled for the graveyard
snapshot and the decision engine. -/
def AgentMemory.getMemorySummary (m : AgentMemory) (agentId : String) :
    MemorySummary :=
  { winRate := m.getWinRate agentId,
    bestStocks := m.getBestStocks agentId 3,
    worstStocks := m.getWorstStocks agentId 3,
    recentTrades := m.getTradeHistory agentId none 5,
    beliefs := m.getBeliefs agentId,
    reflections := m.getReflections agentId 3 }

/-- `clearAgentMemory(agentId)`: the four `DELETE … WHERE agent_id = ?`
statements run at elimination. -/
def AgentMemory.clearAgentMemory (m : AgentMemory) (agentId : String) :
    AgentMemory :=
  { tradeOutcomes := m.tradeOutcomes.filter (fun r => r.agentId ≠ agentId),
    observations := m.observations.filter (fun r => r.agentId ≠ agentId),
    beliefs := m.beliefs.filter (fun r => r.agentId ≠ agentId),
    reflections := m.reflections.filter (fun r => r.agentId ≠ agentId) }

/-- The empty memory store (a fresh database). -/
def AgentMemory.empty : AgentMemory :=
  { tradeOutcomes := [], observations := [], beliefs := [], reflections := [] }

/-- A graveyard entry: the dead agent's record plus its final stats and a
snapshot of its memory. -/
structure GraveEntry where
  agent : AgentRec
  finalValue : ℚ
  finalReturn : ℚ
  eliminatedRound : ℕ
  memorySummary : MemorySummary
  deriving DecidableEq, Repr

/-- One element of the `eliminated` list `runElimination` returns. -/
structure ElimRec where
  name : String
  generation : ℕ
  finalValue : ℚ
  finalReturn : ℚ
  deriving DecidableEq, Repr

/-- The `AgentManager` state: the trading engine, the `agents` object, the
`AgentMemory` store, the graveyard, and the competition record (round number
and eliminated history; the date window is not modelled). -/
structure AgentManagerState where
  engine : TradingEngine
  agents : List (String × AgentRec)
  memory : AgentMemory
  graveyard : List GraveEntry
  round : ℕ
  eliminatedLog : List ElimRec
  deriving DecidableEq, Repr

/-- `createAgent(templateId, generation)`: throws on an unknown template;
otherwise stores a fresh active agent record with `kills = 0` under the
template id and initializes its $25 portfolio. -/
def createAgent (st : AgentManagerState) (templateId : String)
    (generation : ℕ) : Option AgentManagerState :=
  match lookupKey templateId AGENT_TEMPLATES with
  | none => none
  | some template =>
      some { st with
             agents := setKey templateId
               { name := template.name, strategy := template.strategy,
                 generation := generation, active := true, kills := 0 }
               st.agents,
             engine := initializePortfolio st.engine templateId 25 }

/-- One row of the leaderboard (the presentation fields avatar, color and
personality are omitted; `totalReturn` is against the hard-coded $25 seed). -/
structure LeaderboardEntry where
  id : String
  name : String
  currentValue : ℚ
  totalReturn : ℚ
  totalReturnPercent : ℚ
  tradesCount : ℕ
  generation : ℕ
  rank : ℕ
  isElimination : Bool
  deriving DecidableEq, Repr

/-- The row built for one active agent (skipped when inactive); rank and the
danger flag are filled in afterwards.  `tradesCount` is 0 when the portfolio
is missing (`getPerformance` returns null). -/
def leaderboardRow (eng : TradingEngine) (quotes : String → Option ℚ)
    (e : String × AgentRec) : Option LeaderboardEntry :=
  if e.2.active then
    let value := calculatePortfolioValue eng e.1 quotes
    some { id := e.1, name := e.2.name, currentValue := value,
           totalReturn := value - 25,
           totalReturnPercent := (value - 25) / 25 * 100,
           tradesCount :=
             match lookupKey e.1 eng.portfolios with
             | none => 0
             | some _ => (eng.trades.filter (fun t => t.agentId = e.1)).length,
           generation := e.2.generation, rank := 0, isElimination := false }
  else none

/-- Stable insertion step for the value-descending sort
(`agents.sort((a, b) => b.currentValue - a.currentValue)`; JavaScript's sort
is stable, so ties keep iteration order). -/
def insertByValueDesc (x : LeaderboardEntry) :
    List LeaderboardEntry → List LeaderboardEntry
  | [] => [x]
  | y :: ys =>
      if y.currentValue > x.currentValue then y :: insertByValueDesc x ys
      else x :: y :: ys

/-- Stable value-descending sort. -/
def sortByValueDesc (l : List LeaderboardEntry) : List LeaderboardEntry :=
  l.foldr insertByValueDesc []

/-- The `forEach` that assigns `rank = index + 1` and flags the bottom two
rows (`index >= length - 2`) as in elimination danger. -/
def rankFrom (i n : ℕ) : List LeaderboardEntry → List LeaderboardEntry
  | [] => []
  | e :: rest =>
      { e with rank := i + 1, isElimination := decide (i ≥ n - 2) } ::
        rankFrom (i + 1) n rest

/-- `getLeaderboard()`: rows for the active agents in roster order, sorted by
value descending, with ranks and danger flags assigned. -/
def getLeaderboard (st : AgentManagerState) (quotes : String → Option ℚ) :
    List LeaderboardEntry :=
  let sorted := sortByValueDesc (st.agents.filterMap (leaderboardRow st.engine quotes))
  rankFrom 0 sorted.length sorted

/-- The body of the elimination loop for one loser: push the graveyard entry
(with the memory summary), wipe the agent's memory, delete its portfolio,
delete the agent record and recreate it with generation + 1; returns the
`eliminated` entry (old name / old generation / final stats) and the new
state.  `none` models the JavaScript errors when the agent or its template is
missing — unreachable for ids coming off the leaderboard. -/
def eliminateAgent (st : AgentManagerState) (loser : LeaderboardEntry) :
    Option (ElimRec × AgentManagerState) :=
  match lookupKey loser.id st.agents with
  | none => none
  | some agent =>
      let st1 : AgentManagerState :=
        { st with
          graveyard := st.graveyard ++
            [{ agent := agent, finalValue := loser.currentValue,
               finalReturn := loser.totalReturnPercent,
               eliminatedRound := st.round,
               memorySummary := st.memory.getMemorySummary loser.id }],
          memory := st.memory.clearAgentMemory loser.id,
          engine := { st.engine with
                      portfolios := eraseKey loser.id st.engine.portfolios },
          agents := eraseKey loser.id st.agents }
      match createAgent st1 loser.id (agent.generation + 1) with
      | none => none
      | some st2 =>
          some ({ name := agent.name, generation := agent.generation,
                  finalValue := loser.currentValue,
                  finalReturn := loser.totalReturnPercent }, st2)

/-- `this.agents[survivor.id].kills += 2` for one survivor (`none` models the
throw on a missing record — unreachable for leaderboard ids). -/
def bumpKills (st : AgentManagerState) (id : String) : Option AgentManagerState :=
  match lookupKey id st.agents with
  | none => none
  | some a =>
      some { st with agents := setKey id { a with kills := a.kills + 2 } st.agents }

/-- `runElimination()`: no-op returning an empty eliminated list when fewer
than 3 agents are on the (active-only) leaderboard; otherwise eliminates the
bottom two rows in order, gives every survivor `kills += 2`, advances the
round and appends to the eliminated history. -/
def runElimination (st : AgentManagerState) (quotes : String → Option ℚ) :
    Option (List ElimRec × Option ℕ × AgentManagerState) :=
  let leaderboard := getLeaderboard st quotes
  if leaderboard.length < 3 then some ([], none, st)
  else
    let bottom2 := leaderboard.drop (leaderboard.length - 2)
    match bottom2.foldlM
        (fun acc loser => (eliminateAgent acc.2 loser).map
          (fun r => (acc.1 ++ [r.1], r.2)))
        (([] : List ElimRec), st) with
    | none => none
    | some (eliminated, st1) =>
        match (leaderboard.take (leaderboard.length - 2)).foldlM
            (fun s e => bumpKills s e.id) st1 with
        | none => none
        | some st2 =>
            some (eliminated, some (st2.round + 1),
              { st2 with round := st2.round + 1,
                         eliminatedLog := st2.eliminatedLog ++ eliminated })

/-- The state produced by one iteration of the elimination loop for `loser`
(agent record `a`, template `t`): graveyard entry appended, memory wiped,
portfolio deleted and re-seeded at $25, agent recreated at generation + 1. -/
def respawnState (st : AgentManagerState) (loser : LeaderboardEntry)
    (a : AgentRec) (t : AgentTemplate) : AgentManagerState :=
  { engine := { portfolios := eraseKey loser.id st.engine.portfolios ++
                  [(loser.id, { cash := 25, positions := [],
                                startingValue := 25, history := [25] })],
                trades := st.engine.trades },
    agents := setKey loser.id
      { name := t.name, strategy := t.strategy,
        generation := a.generation + 1, active := true, kills := 0 }
      (eraseKey loser.id st.agents),
    memory := st.memory.clearAgentMemory loser.id,
    graveyard := st.graveyard ++
      [{ agent := a, finalValue := loser.currentValue,
         finalReturn := loser.totalReturnPercent,
         eliminatedRound := st.round,
         memorySummary := st.memory.getMemorySummary loser.id }],
    round := st.round,
    eliminatedLog := st.eliminatedLog }

/-- A three-portfolio engine: warren $100, elon $50, cathy $10. -/
def arenaEngine : TradingEngine :=
  { portfolios :=
      [("warren", { cash := 100, positions := [], startingValue := 25,
                    history := [25] }),
       ("elon", { cash := 50, positions := [], startingValue := 25,
                  history := [25] }),
       ("cathy", { cash := 10, positions := [], startingValue := 25,
                   history := [25] })],
    trades := [] }

/-- A three-agent arena (all active, generation 1) over `arenaEngine`. -/
def arenaState : AgentManagerState :=
  { engine := arenaEngine,
    agents :=
      [("warren", { name := "Warren", strategy := "value", generation := 1,
                    active := true, kills := 0 }),
       ("elon", { name := "Elon", strategy := "meme", generation := 1,
                  active := true, kills := 0 }),
       ("cathy", { name := "Cathy", strategy := "growth", generation := 1,
                   active := true, kills := 0 })],
    memory := AgentMemory.empty, graveyard := [], round := 1,
    eliminatedLog := [] }

theorem lookupKey_setKey_self (k : String) (v : α) (l : List (String × α)) :
    lookupKey k (setKey k v l) = some v := by
  induction l with
  | nil => simp [setKey, lookupKey]
  | cons e rest ih =>
      obtain ⟨k', v'⟩ := e
      by_cases h : k' = k
      · simp [setKey, h, lookupKey]
      · simp [setKey, h, lookupKey, ih]

theorem lookupKey_setKey_ne (k k' : String) (v : α) (l : List (String × α))
    (h : k' ≠ k) : lookupKey k' (setKey k v l) = lookupKey k' l := by
  have hkk : ¬ k = k' := fun hh => h hh.symm
  induction l with
  | nil => simp [setKey, lookupKey, hkk]
  | cons e rest ih =>
      obtain ⟨k₀, v₀⟩ := e
      by_cases h₀ : k₀ = k
      · subst h₀
        simp [setKey, lookupKey, hkk]
      · simp only [setKey, if_neg h₀, lookupKey]
        by_cases h₁ : k₀ = k'
        · simp [h₁]
        · simp [h₁, ih]

theorem lookupKey_eraseKey_ne (k k' : String) (l : List (String × α))
    (h : k' ≠ k) : lookupKey k' (eraseKey k l) = lookupKey k' l := by
  have hkk : ¬ k = k' := fun hh => h hh.symm
  induction l with
  | nil => simp [eraseKey]
  | cons e rest ih =>
      obtain ⟨k₀, v₀⟩ := e
      by_cases h₀ : k₀ = k
      · subst h₀
        simp [eraseKey, lookupKey, hkk]
      · simp only [eraseKey, if_neg h₀, lookupKey]
        by_cases h₁ : k₀ = k'
        · simp [h₁]
        · simp [h₁, ih]

theorem setKey_of_lookup_none (k : String) (v : α) (l : List (String × α))
    (h : lookupKey k l = none) : setKey k v l = l ++ [(k, v)] := by
  induction l with
  | nil => simp [setKey]
  | cons e rest ih =>
      obtain ⟨k₀, v₀⟩ := e
      by_cases h₀ : k₀ = k
      · simp [lookupKey, h₀] at h
      · simp only [lookupKey, if_neg h₀] at h
        simp [setKey, h₀, ih h]

theorem eraseKey_append_self (k : String) (v : α) (l : List (String × α))
    (h : lookupKey k l = none) : eraseKey k (l ++ [(k, v)]) = l := by
  induction l with
  | nil => simp [eraseKey]
  | cons e rest ih =>
      obtain ⟨k₀, v₀⟩ := e
      by_cases h₀ : k₀ = k
      · simp [lookupKey, h₀] at h
      · simp only [lookupKey, if_neg h₀] at h
        simp [eraseKey, h₀, ih h]

theorem mem_setKey (k : String) (v : α) (l : List (String × α)) (e : String × α)
    (he : e ∈ setKey k v l) : e = (k, v) ∨ e ∈ l := by
  induction l with
  | nil => simpa [setKey] using he
  | cons e₀ rest ih =>
      obtain ⟨k₀, v₀⟩ := e₀
      by_cases h₀ : k₀ = k
      · simp only [setKey, if_pos h₀, List.mem_cons] at he
        rcases he with h | h
        · exact .inl h
        · exact .inr (List.mem_cons_of_mem _ h)
      · simp only [setKey, if_neg h₀, List.mem_cons] at he
        rcases he with h | h
        · exact .inr (by simp [h])
        · rcases ih h with h' | h'
          · exact .inl h'
          · exact .inr (List.mem_cons_of_mem _ h')

theorem mem_eraseKey (k : String) (l : List (String × α)) (e : String × α)
    (he : e ∈ eraseKey k l) : e ∈ l := by
  induction l with
  | nil => simp [eraseKey] at he
  | cons e₀ rest ih =>
      obtain ⟨k₀, v₀⟩ := e₀
      by_cases h₀ : k₀ = k
      · exact List.mem_cons_of_mem _ (by simpa [eraseKey, h₀] using he)
      · simp only [eraseKey, if_neg h₀, List.mem_cons] at he
        rcases he with h | h
        · simp [h]
        · exact List.mem_cons_of_mem _ (ih h)

theorem lookupKey_some_mem (k : String) (v : α) (l : List (String × α))
    (h : lookupKey k l = some v) : (k, v) ∈ l := by
  induction l with
  | nil => simp [lookupKey] at h
  | cons e rest ih =>
      obtain ⟨k₀, v₀⟩ := e
      by_cases h₀ : k₀ = k
      · subst h₀
        simp only [lookupKey, eq_self_iff_true, if_true, Option.some.injEq] at h
        subst h
        exact List.mem_cons_self _ _
      · simp only [lookupKey, if_neg h₀] at h
        exact List.mem_cons_of_mem _ (ih h)

/-- C2: starting from a fresh portfolio with cash 25, buying 1 AAPL @ $20
succeeds leaving cash 5 and position `{shares: 1, avgCost: 20}`; selling that
share @ $25 succeeds with pnl 5, leaves cash 30 and removes the AAPL entry. -/
theorem scenario_buy_then_sell :
    scenarioBuy.1 =
      .success { agentId := "agent", side := "BUY", symbol := "AAPL",
                 shares := 1, price := 20, total := 20, pnl := none } none
  ∧ (lookupKey "agent" scenarioBuy.2.portfolios).map Portfolio.cash = some 5
  ∧ positionOf scenarioBuy.2 "agent" "AAPL" = some { shares := 1, avgCost := 20 }
  ∧ scenarioSell.1 =
      .success { agentId := "agent", side := "SELL", symbol := "AAPL",
                 shares := 1, price := 25, total := 25, pnl := some 5 } (some 5)
  ∧ (lookupKey "agent" scenarioSell.2.portfolios).map Portfolio.cash = some 30
  ∧ positionOf scenarioSell.2 "agent" "AAPL" = none := by
  refine ⟨?_, ?_, ?_, ?_, ?_, ?_⟩ <;>
    norm_num [scenarioSell, scenarioBuy, scenarioEngine, emptyEngine,
      executeBuy, executeSell, initializePortfolio, positionOf,
      lookupKey, setKey, eraseKey, round4, round_eq]

/-- C5: a buy or sell that does not return `success: true` leaves the whole
engine state (portfolios, trade list) exactly as it was. -/
theorem failed_trade_leaves_engine_unchanged (eng : TradingEngine)
    (agentId symbol : String) (shares price : ℚ) :
    ((executeBuy eng agentId symbol shares price).1.isSuccess = false →
      (executeBuy eng agentId symbol shares price).2 = eng)
  ∧ ((executeSell eng agentId symbol shares price).1.isSuccess = false →
      (executeSell eng agentId symbol shares price).2 = eng) := by
  constructor
  · intro h
    cases hl : lookupKey agentId eng.portfolios with
    | none => simp [executeBuy, hl]
    | some portfolio =>
        by_cases h1 : round4 shares ≤ 0
        · simp [executeBuy, hl, h1]
        · by_cases h2 : portfolio.cash < round4 shares * price
          · simp [executeBuy, hl, h1, h2]
          · exfalso
            simp [executeBuy, hl, h1, h2, TradeOutcome.isSuccess] at h
  · intro h
    cases hl : lookupKey agentId eng.portfolios with
    | none => simp [executeSell, hl]
    | some portfolio =>
        cases hq : lookupKey symbol portfolio.positions with
        | none => simp [executeSell, hl, hq]
        | some position =>
            by_cases h1 : position.shares < shares
            · simp [executeSell, hl, hq, h1]
            · exfalso
              simp [executeSell, hl, hq, h1, TradeOutcome.isSuccess] at h

/-- Witness for C5: on the scenario start state, an unaffordable buy and a
sell with no position both leave the engine untouched. -/
theorem failed_trade_leaves_engine_unchanged_witness :
    (executeBuy scenarioEngine "agent" "AAPL" 10 20).2 = scenarioEngine
  ∧ (executeSell scenarioEngine "agent" "AAPL" 1 20).2 = scenarioEngine := by
  constructor
  · exact (failed_trade_leaves_engine_unchanged scenarioEngine "agent" "AAPL" 10 20).1
      (by norm_num [scenarioEngine, emptyEngine, executeBuy, initializePortfolio,
        lookupKey, setKey, round4, round_eq, TradeOutcome.isSuccess])
  · exact (failed_trade_leaves_engine_unchanged scenarioEngine "agent" "AAPL" 1 20).2
      (by norm_num [scenarioEngine, emptyEngine, executeSell, initializePortfolio,
        lookupKey, setKey, TradeOutcome.isSuccess])

theorem foldl_add_eq (f : String × Position → ℚ) (c : ℚ)
    (l : List (String × Position)) :
    l.foldl (fun acc e => acc + f e) c = c + (l.map f).sum := by
  induction l generalizing c with
  | nil => simp
  | cons e rest ih => simp [ih, add_assoc]

/-- C7: for an existing portfolio, `calculatePortfolioValue` is cash plus the
sum over positions of `shares * quote` when the quote succeeds and
`shares * avgCost` when it fails; one failed quote only affects its own
summand, and in the exact-rational model the total is always a finite
rational. -/
theorem calculatePortfolioValue_fallback (eng : TradingEngine) (agentId : String)
    (quotes : String → Option ℚ) (p : Portfolio)
    (hp : lookupKey agentId eng.portfolios = some p) :
    calculatePortfolioValue eng agentId quotes =
      p.cash + (p.positions.map
        (fun e => e.2.shares * ((quotes e.1).getD e.2.avgCost))).sum := by
  simp only [calculatePortfolioValue, hp]
  have hfn :
      (fun (totalValue : ℚ) (entry : String × Position) =>
        totalValue + entry.2.shares *
          (match quotes entry.1 with
           | some price => price
           | none => entry.2.avgCost)) =
      fun acc e => acc + (e.2.shares * ((quotes e.1).getD e.2.avgCost)) := by
    funext acc e
    cases h : quotes e.1 <;> simp [h]
  rw [hfn, foldl_add_eq]

/-- Witness for C7: a portfolio with cash 100 holding 2 shares of A (avgCost 3)
and 5 shares of B (avgCost 7), where only A has a quote (10): the value is
100 + 2*10 + 5*7 = 155. -/
theorem calculatePortfolioValue_fallback_witness :
    calculatePortfolioValue valuationEngine "a"
      (fun s => if s = "A" then some 10 else none) = 155 := by
  have hp : lookupKey "a" valuationEngine.portfolios = some valuationPortfolio := by
    norm_num [valuationEngine, lookupKey]
  rw [calculatePortfolioValue_fallback _ _ _ _ hp]
  simp [valuationPortfolio]
  norm_num

/-- C3: a successful buy into an existing position merges at weighted-average
cost: the new share count is `oldShares + shares` and the new average cost is
`(oldShares*oldAvgCost + shares*price) / (oldShares + shares)` (shares taken
at the 4-decimal granularity the engine trades at). -/
theorem executeBuy_weighted_average (eng : TradingEngine) (agentId symbol : String)
    (s price : ℚ) (p : Portfolio) (pos : Position)
    (hp : lookupKey agentId eng.portfolios = some p)
    (hpos : lookupKey symbol p.positions = some pos)
    (hs : round4 s = s) (h0 : 0 < s) (hfunds : ¬ p.cash < s * price) :
    (executeBuy eng agentId symbol s price).1.isSuccess = true
  ∧ positionOf (executeBuy eng agentId symbol s price).2 agentId symbol =
      some { shares := pos.shares + s,
             avgCost := (pos.shares * pos.avgCost + s * price) / (pos.shares + s) } := by
  have hns : ¬ s ≤ 0 := not_le.mpr h0
  constructor
  · simp [executeBuy, hp, hs, hns, hfunds, TradeOutcome.isSuccess]
  · simp [executeBuy, positionOf, hp, hpos, hs, hns, hfunds, lookupKey_setKey_self]

/-- Witness for C3: buying 10 shares @ $10 then 10 shares @ $20 of the same
symbol yields `shares = 20`, `avgCost = 15`. -/
theorem executeBuy_weighted_average_witness :
    (executeBuy wapEngine "w" "X" 10 20).1.isSuccess = true
  ∧ positionOf (executeBuy wapEngine "w" "X" 10 20).2 "w" "X" =
      some { shares := 20, avgCost := 15 } := by
  have hp : lookupKey "w" wapEngine.portfolios = some
      { cash := 900, positions := [("X", { shares := 10, avgCost := 10 })],
        startingValue := 1000, history := [1000] } := by
    norm_num [wapEngine, emptyEngine, executeBuy, initializePortfolio,
      lookupKey, setKey, round4, round_eq]
  have h := executeBuy_weighted_average wapEngine "w" "X" 10 20
    { cash := 900, positions := [("X", { shares := 10, avgCost := 10 })],
      startingValue := 1000, history := [1000] }
    { shares := 10, avgCost := 10 } hp
    (by norm_num [lookupKey]) (by norm_num [round4, round_eq]) (by norm_num)
    (by norm_num)
  refine ⟨h.1, ?_⟩
  rw [h.2]
  norm_num

/-- C4: for an existing portfolio, `executeBuy` fails with the invalid-quantity
error exactly when the 4-decimal-rounded share amount is ≤ 0, fails with the
insufficient-funds error when the (rounded) shares times price exceeds cash
(commission is 0), and succeeds otherwise. -/
theorem executeBuy_error_taxonomy (eng : TradingEngine) (agentId symbol : String)
    (s price : ℚ) (p : Portfolio)
    (hp : lookupKey agentId eng.portfolios = some p) :
    (round4 s ≤ 0 →
      (executeBuy eng agentId symbol s price).1 = .failure "Invalid share amount")
  ∧ (0 < round4 s → p.cash < round4 s * price →
      (executeBuy eng agentId symbol s price).1 = .failure "Insufficient funds")
  ∧ (0 < round4 s → ¬ p.cash < round4 s * price →
      (executeBuy eng agentId symbol s price).1.isSuccess = true) := by
  refine ⟨fun h1 => ?_, fun h1 h2 => ?_, fun h1 h2 => ?_⟩
  · simp [executeBuy, hp, h1]
  · simp [executeBuy, hp, not_le.mpr h1, h2]
  · simp [executeBuy, hp, not_le.mpr h1, h2, TradeOutcome.isSuccess]

/-- Witness for C4: on a $25 portfolio, buying 0 shares is an invalid
quantity, 2 shares @ $20 is insufficient funds, and 1 share @ $20 succeeds. -/
theorem executeBuy_error_taxonomy_witness :
    (executeBuy taxEngine "t" "X" 0 20).1 = .failure "Invalid share amount"
  ∧ (executeBuy taxEngine "t" "X" 2 20).1 = .failure "Insufficient funds"
  ∧ (executeBuy taxEngine "t" "X" 1 20).1.isSuccess = true := by
  have hp : lookupKey "t" taxEngine.portfolios = some
      { cash := 25, positions := [], startingValue := 25, history := [25] } := by
    norm_num [taxEngine, emptyEngine, initializePortfolio, lookupKey, setKey]
  exact ⟨(executeBuy_error_taxonomy taxEngine "t" "X" 0 20 _ hp).1
            (by norm_num [round4, round_eq]),
         (executeBuy_error_taxonomy taxEngine "t" "X" 2 20 _ hp).2.1
            (by norm_num [round4, round_eq]) (by norm_num [round4, round_eq]),
         (executeBuy_error_taxonomy taxEngine "t" "X" 1 20 _ hp).2.2
            (by norm_num [round4, round_eq]) (by norm_num [round4, round_eq])⟩

/-- C10: `executeSell` never validates the share amount.  Selling 0 shares of
a held position succeeds, records a SELL trade with pnl 0 and changes nothing
else; selling a negative amount also succeeds (the `position.shares < shares`
guard is false), moves cash by `shares * price` — a decrease of
`|shares| * price` — and increases the position's share count. -/
theorem executeSell_no_quantity_validation (eng : TradingEngine)
    (agentId symbol : String) (price : ℚ) (p : Portfolio) (pos : Position)
    (hp : lookupKey agentId eng.portfolios = some p)
    (hpos : lookupKey symbol p.positions = some pos)
    (hq : 0 < pos.shares) :
    ((executeSell eng agentId symbol 0 price).1 =
        .success { agentId := agentId, side := "SELL", symbol := symbol,
                   shares := 0, price := price, total := 0, pnl := some 0 } (some 0)
      ∧ (lookupKey agentId (executeSell eng agentId symbol 0 price).2.portfolios).map
          Portfolio.cash = some p.cash
      ∧ positionOf (executeSell eng agentId symbol 0 price).2 agentId symbol = some pos)
  ∧ ∀ s : ℚ, s < 0 →
      ((executeSell eng agentId symbol s price).1.isSuccess = true
        ∧ (lookupKey agentId (executeSell eng agentId symbol s price).2.portfolios).map
            Portfolio.cash = some (p.cash + s * price)
        ∧ p.cash + s * price = p.cash - |s| * price
        ∧ positionOf (executeSell eng agentId symbol s price).2 agentId symbol =
            some { shares := pos.shares - s, avgCost := pos.avgCost }
        ∧ pos.shares < pos.shares - s) := by
  have hns : ¬ pos.shares < (0 : ℚ) := not_lt.mpr (le_of_lt hq)
  have hne : pos.shares ≠ 0 := ne_of_gt hq
  constructor
  · refine ⟨?_, ?_, ?_⟩ <;>
      simp [executeSell, positionOf, hp, hpos, hns, hne, lookupKey_setKey_self]
  · intro s hslt
    have hns2 : ¬ pos.shares < s := not_lt.mpr (le_of_lt (lt_trans hslt hq))
    have hne2 : pos.shares - s ≠ 0 := ne_of_gt (by linarith)
    refine ⟨?_, ?_, ?_, ?_, ?_⟩
    · simp [executeSell, hp, hpos, hns2, hne2, TradeOutcome.isSuccess]
    · simp [executeSell, hp, hpos, hns2, hne2, lookupKey_setKey_self]
    · rw [abs_of_neg hslt]
      ring
    · simp [executeSell, positionOf, hp, hpos, hns2, hne2, lookupKey_setKey_self]
    · linarith

/-- Witness for C10: on a portfolio with cash 80 holding 2 shares of X at
avgCost 10, selling 0 shares @ $5 succeeds and changes nothing, and selling
−3 shares @ $5 succeeds, drops cash to 65 and raises the position to 5
shares. -/
theorem executeSell_no_quantity_validation_witness :
    ((executeSell nqvEngine "b" "X" 0 5).1 =
        .success { agentId := "b", side := "SELL", symbol := "X",
                   shares := 0, price := 5, total := 0, pnl := some 0 } (some 0)
      ∧ (lookupKey "b" (executeSell nqvEngine "b" "X" 0 5).2.portfolios).map
          Portfolio.cash = some 80
      ∧ positionOf (executeSell nqvEngine "b" "X" 0 5).2 "b" "X" =
          some { shares := 2, avgCost := 10 })
  ∧ ((executeSell nqvEngine "b" "X" (-3) 5).1.isSuccess = true
      ∧ (lookupKey "b" (executeSell nqvEngine "b" "X" (-3) 5).2.portfolios).map
          Portfolio.cash = some 65
      ∧ positionOf (executeSell nqvEngine "b" "X" (-3) 5).2 "b" "X" =
          some { shares := 5, avgCost := 10 }) := by
  have hp : lookupKey "b" nqvEngine.portfolios = some
      { cash := 80, positions := [("X", { shares := 2, avgCost := 10 })],
        startingValue := 100, history := [100] } := by
    norm_num [nqvEngine, emptyEngine, executeBuy, initializePortfolio,
      lookupKey, setKey, round4, round_eq]
  have h := executeSell_no_quantity_validation nqvEngine "b" "X" 5
    { cash := 80, positions := [("X", { shares := 2, avgCost := 10 })],
      startingValue := 100, history := [100] }
    { shares := 2, avgCost := 10 } hp
    (by norm_num [lookupKey]) (by norm_num)
  obtain ⟨⟨h1, h2, h3⟩, hneg⟩ := h
  obtain ⟨h4, h5, _, h6, _⟩ := hneg (-3) (by norm_num)
  refine ⟨⟨h1, ?_, ?_⟩, h4, ?_, ?_⟩
  · rw [h2]
  · rw [h3]
  · rw [h5]
    norm_num
  · rw [h6]
    norm_num

theorem executeBuy_preserves_nonneg (eng : TradingEngine)
    (agentId symbol : String) (s price : ℚ) (h : eng.Nonneg) :
    (executeBuy eng agentId symbol s price).2.Nonneg := by
  cases hl : lookupKey agentId eng.portfolios with
  | none => simpa [executeBuy, hl] using h
  | some portfolio =>
      by_cases h1 : round4 s ≤ 0
      · simpa [executeBuy, hl, h1] using h
      · by_cases h2 : portfolio.cash < round4 s * price
        · simpa [executeBuy, hl, h1, h2] using h
        · have hport := h _ (lookupKey_some_mem _ _ _ hl)
          have hrs : 0 < round4 s := not_le.mp h1
          intro e he
          simp only [executeBuy, hl, h1, h2, add_zero, if_false,
            not_false_eq_true, ite_false] at he
          rcases mem_setKey _ _ _ _ he with heq | hmem
          · subst heq
            refine ⟨?_, ?_⟩
            · exact sub_nonneg.mpr (not_lt.mp h2)
            · intro q hq
              rcases mem_setKey _ _ _ _ hq with heq2 | hmem2
              · subst heq2
                cases hx : lookupKey symbol portfolio.positions with
                | none => simp [hx, le_of_lt hrs]
                | some pos =>
                    have h3 := hport.2 _ (lookupKey_some_mem _ _ _ hx)
                    simp only [hx, Option.getD_some]
                    exact add_nonneg h3 (le_of_lt hrs)
              · exact hport.2 _ hmem2
          · exact h _ hmem

theorem executeSell_preserves_nonneg (eng : TradingEngine)
    (agentId symbol : String) (s price : ℚ) (h : eng.Nonneg)
    (hs : 0 ≤ s) (hpr : 0 ≤ price) :
    (executeSell eng agentId symbol s price).2.Nonneg := by
  cases hl : lookupKey agentId eng.portfolios with
  | none => simpa [executeSell, hl] using h
  | some portfolio =>
      cases hx : lookupKey symbol portfolio.positions with
      | none => simpa [executeSell, hl, hx] using h
      | some position =>
          by_cases h1 : position.shares < s
          · simpa [executeSell, hl, hx, h1] using h
          · have hport := h _ (lookupKey_some_mem _ _ _ hl)
            intro e he
            simp only [executeSell, hl, hx, h1, sub_zero, not_false_eq_true,
              ite_false, if_false] at he
            rcases mem_setKey _ _ _ _ he with heq | hmem
            · subst heq
              refine ⟨?_, ?_⟩
              · exact add_nonneg hport.1 (mul_nonneg hs hpr)
              · intro q hq
                by_cases h0 : position.shares - s = 0
                · rw [if_pos h0] at hq
                  exact hport.2 _ (mem_eraseKey _ _ _ hq)
                · rw [if_neg h0] at hq
                  rcases mem_setKey _ _ _ _ hq with heq2 | hmem2
                  · subst heq2
                    exact sub_nonneg.mpr (not_lt.mp h1)
                  · exact hport.2 _ hmem2
            · exact h _ hmem

/-- C1 (amended): starting from any non-negative engine state, a sequence of
buy/sell calls keeps cash ≥ 0 and every position's shares ≥ 0, provided each
sell is given nonnegative shares and a nonnegative price (buys need no
restriction).  With fully arbitrary arguments the cash part fails, see the
counterexample. -/
theorem nonneg_invariant (eng : TradingEngine) (ops : List TradeOp)
    (h0 : eng.Nonneg) (hops : ∀ op ∈ ops, op.Benign) :
    (applyOps eng ops).Nonneg := by
  induction ops generalizing eng with
  | nil => simpa [applyOps] using h0
  | cons op rest ih =>
      have hop := hops op (List.mem_cons_self _ _)
      have hrest : ∀ o ∈ rest, o.Benign := fun o ho => hops o (List.mem_cons_of_mem _ ho)
      have hstep : (applyOp eng op).Nonneg := by
        cases op with
        | buy a sym sh pr => exact executeBuy_preserves_nonneg eng a sym sh pr h0
        | sell a sym sh pr =>
            exact executeSell_preserves_nonneg eng a sym sh pr h0 hop.1 hop.2
      simpa [applyOps] using ih (applyOp eng op) hstep hrest

/-- Counterexample to C1 as stated: with arbitrary arguments the invariant
fails — buying 1 AAPL @ $20 from $25 cash and then selling −10 shares @ $10
succeeds and drives cash to −95 < 0. -/
theorem cash_goes_negative_on_negative_sell :
    (lookupKey "agent" negSellEngine.portfolios).map Portfolio.cash = some (-95)
  ∧ ¬ negSellEngine.Nonneg := by
  have hev : negSellEngine.portfolios = [("agent", negSellPortfolio)] := by
    norm_num [negSellEngine, negSellOps, negSellPortfolio, applyOps, applyOp,
      scenarioEngine, emptyEngine, executeBuy, executeSell,
      initializePortfolio, lookupKey, setKey, eraseKey, round4, round_eq]
  constructor
  · rw [hev]
    norm_num [lookupKey, negSellPortfolio]
  · intro hn
    have h2 := hn ("agent", negSellPortfolio)
      (by rw [hev]; exact List.mem_singleton_self _)
    exact absurd h2.1 (by norm_num [negSellPortfolio])

/-- Witness for C1 (amended): the invariant holds along a concrete benign
buy/sell sequence from the fresh $25 account. -/
theorem nonneg_invariant_witness : (applyOps scenarioEngine benignOps).Nonneg :=
  nonneg_invariant scenarioEngine benignOps
    (by intro e he
        simp only [scenarioEngine, emptyEngine, initializePortfolio,
          lookupKey, setKey, List.mem_singleton] at he
        subst he
        exact ⟨by norm_num, by simp⟩)
    (by intro op hop
        simp only [benignOps, List.mem_cons, List.not_mem_nil, or_false] at hop
        rcases hop with rfl | rfl
        · trivial
        · exact ⟨by norm_num, by norm_num⟩)

/-- C6 (amended): for a portfolio with NO existing position in the symbol,
buying `s` shares at price `p` (s > 0 at 4-decimal granularity, p > 0) and
then selling all `s` shares at the same price returns cash exactly to its
pre-trade value and the sell reports pnl = 0.  (With a pre-existing position
at a different average cost the cash still round-trips but the reported pnl
is nonzero, see the counterexample.) -/
theorem roundtrip_restores_cash_and_zero_pnl (eng : TradingEngine)
    (agentId symbol : String) (s price : ℚ) (p : Portfolio)
    (hp : lookupKey agentId eng.portfolios = some p)
    (hnopos : lookupKey symbol p.positions = none)
    (hs : round4 s = s) (h0 : 0 < s) (_hpr : 0 < price)
    (hfunds : ¬ p.cash < s * price) :
    (executeSell (executeBuy eng agentId symbol s price).2 agentId symbol s price).1 =
      .success { agentId := agentId, side := "SELL", symbol := symbol,
                 shares := s, price := price, total := s * price, pnl := some 0 }
        (some 0)
  ∧ (lookupKey agentId
        (executeSell (executeBuy eng agentId symbol s price).2
          agentId symbol s price).2.portfolios).map Portfolio.cash = some p.cash
  ∧ positionOf
      (executeSell (executeBuy eng agentId symbol s price).2 agentId symbol s price).2
      agentId symbol = none := by
  have hs0 : s ≠ 0 := ne_of_gt h0
  have hdiv : (0 * 0 + s * price) / (0 + s) = price := by
    rw [zero_mul, zero_add, zero_add, mul_div_cancel_left₀ _ hs0]
  have hdiv2 : s * price / s = price := mul_div_cancel_left₀ _ hs0
  have hlb : lookupKey agentId (executeBuy eng agentId symbol s price).2.portfolios
      = some { p with
               cash := p.cash - s * price,
               positions := setKey symbol (Position.mk s price) p.positions } := by
    simp [executeBuy, hp, hnopos, hs, not_le.mpr h0, hfunds,
      lookupKey_setKey_self, hdiv, hdiv2]
  have hx : lookupKey symbol (setKey symbol (Position.mk s price) p.positions)
      = some (Position.mk s price) :=
    lookupKey_setKey_self _ _ _
  have hguard : ¬ (s < s) := lt_irrefl s
  have herase : eraseKey symbol (setKey symbol (Position.mk s price) p.positions)
      = p.positions := by
    rw [setKey_of_lookup_none _ _ _ hnopos, eraseKey_append_self _ _ _ hnopos]
  refine ⟨?_, ?_, ?_⟩
  · simp [executeSell, hlb, hx, hguard]
  · simp [executeSell, hlb, hx, hguard, lookupKey_setKey_self]
  · simp [executeSell, positionOf, hlb, hx, hguard, lookupKey_setKey_self,
      herase, hnopos]

/-- Counterexample to C6 as stated: on a portfolio already holding SYM at a
different average cost (1 share @ 10), buying 1 share @ $20 and immediately
selling it @ $20 reports pnl = 5, not 0 (the sell is priced against the
blended average cost 15). -/
theorem roundtrip_pnl_nonzero_with_prior_position :
    outcomePnl priorPositionRoundtrip.1 = some 5
  ∧ outcomePnl priorPositionRoundtrip.1 ≠ some 0 := by
  have h : outcomePnl priorPositionRoundtrip.1 = some 5 := by
    norm_num [priorPositionRoundtrip, priorPositionEngine, emptyEngine,
      executeBuy, executeSell, initializePortfolio, outcomePnl, lookupKey,
      setKey, eraseKey, round4, round_eq]
  refine ⟨h, ?_⟩
  rw [h]
  norm_num

/-- Witness for C6 (amended): on a fresh $50 account, buying 2 SYM @ $10 and
selling them @ $10 restores cash to 50 with pnl = 0 and no position left. -/
theorem roundtrip_restores_cash_witness :
    (executeSell (executeBuy roundtripEngine "r" "SYM" 2 10).2 "r" "SYM" 2 10).1 =
      .success { agentId := "r", side := "SELL", symbol := "SYM",
                 shares := 2, price := 10, total := 20, pnl := some 0 } (some 0)
  ∧ (lookupKey "r"
        (executeSell (executeBuy roundtripEngine "r" "SYM" 2 10).2
          "r" "SYM" 2 10).2.portfolios).map Portfolio.cash = some 50
  ∧ positionOf
      (executeSell (executeBuy roundtripEngine "r" "SYM" 2 10).2 "r" "SYM" 2 10).2
      "r" "SYM" = none := by
  have hp : lookupKey "r" roundtripEngine.portfolios = some
      { cash := 50, positions := [], startingValue := 50, history := [50] } := by
    norm_num [roundtripEngine, emptyEngine, initializePortfolio, lookupKey, setKey]
  have h := roundtrip_restores_cash_and_zero_pnl roundtripEngine "r" "SYM" 2 10
    { cash := 50, positions := [], startingValue := 50, history := [50] } hp
    (by norm_num [lookupKey]) (by norm_num [round4, round_eq]) (by norm_num)
    (by norm_num) (by norm_num)
  obtain ⟨h1, h2, h3⟩ := h
  rw [show (2 : ℚ) * 10 = 20 by norm_num] at h1
  exact ⟨h1, h2, h3⟩

/-- C9: in every strategy's position review, a remembered sentiment below
−0.5 for a held, quoted symbol whose pnlPercent is negative forces a sell of
the entire position, whatever the strategy-specific thresholds, analysis or
random draw say; and every intent the review ever issues is a sell of an
entire held position at its quoted price — never a buy. -/
theorem negative_sentiment_forces_sell (strategy symbol : String)
    (position : Position) (portfolio : Portfolio) (price : ℚ)
    (quotes : String → Option ℚ) (analyses : String → Option Analysis)
    (memeRands sentiments : String → ℚ)
    (hmem : (symbol, position) ∈ portfolio.positions)
    (hq : quotes symbol = some price)
    (hsent : sentiments symbol < -(1/2))
    (hpnl : (price - position.avgCost) / position.avgCost * 100 < 0)
    (hsh : 0 < position.shares) :
    (symbol, position.shares, price) ∈
      checkPositions strategy portfolio quotes analyses memeRands sentiments
  ∧ ∀ intent ∈ checkPositions strategy portfolio quotes analyses memeRands
      sentiments,
      ∃ e ∈ portfolio.positions, ∃ pr, quotes e.1 = some pr
        ∧ intent = (e.1, e.2.shares, pr) := by
  constructor
  · refine List.mem_filterMap.mpr ⟨(symbol, position), hmem, ?_⟩
    have hdec1 : decide (sentiments symbol < -(1/2 : ℚ)) = true := decide_eq_true hsent
    have hdec2 : decide ((price - position.avgCost) / position.avgCost * 100 < 0)
        = true := decide_eq_true hpnl
    have hdec3 : decide (position.shares > 0) = true := decide_eq_true hsh
    have hb : (checkPositionShouldSell strategy
          ((price - position.avgCost) / position.avgCost * 100)
          (sentiments symbol) (analyses symbol) (memeRands symbol)
        && decide (position.shares > 0)) = true := by
      unfold checkPositionShouldSell
      rw [hdec1, hdec2, hdec3]
      simp
    simp only [checkPositionAction, hq]
    rw [if_pos hb]
  · intro intent hint
    obtain ⟨e, he, hact⟩ := List.mem_filterMap.mp hint
    refine ⟨e, he, ?_⟩
    cases hqe : quotes e.1 with
    | none => simp [checkPositionAction, hqe] at hact
    | some pr =>
        refine ⟨pr, rfl, ?_⟩
        simp only [checkPositionAction, hqe] at hact
        by_cases hc : (checkPositionShouldSell strategy
            ((pr - e.2.avgCost) / e.2.avgCost * 100) (sentiments e.1)
            (analyses e.1) (memeRands e.1)
          && decide (e.2.shares > 0)) = true
        · rw [if_pos hc] at hact
          exact (Option.some.inj hact).symm
        · rw [if_neg hc] at hact
          simp at hact

/-- Witness for C9: the hodl strategy only sells below −15%, but with
remembered sentiment −0.6 and the position down −10% the review still issues
a sell of all 3 shares. -/
theorem negative_sentiment_forces_sell_witness :
    ("X", (3 : ℚ), (9 : ℚ)) ∈
      checkPositions "hodl" reviewPortfolio (fun _ => some 9) (fun _ => none)
        (fun _ => 0) (fun _ => -(3/5)) :=
  (negative_sentiment_forces_sell "hodl" "X" { shares := 3, avgCost := 10 }
    reviewPortfolio 9 (fun _ => some 9) (fun _ => none) (fun _ => 0)
    (fun _ => -(3/5)) (by simp [reviewPortfolio]) rfl (by norm_num)
    (by norm_num) (by norm_num)).1

theorem lookupKey_eq_none_of_not_mem (k : String) (l : List (String × α))
    (h : k ∉ l.map Prod.fst) : lookupKey k l = none := by
  induction l with
  | nil => rfl
  | cons e rest ih =>
      obtain ⟨k₀, v₀⟩ := e
      simp only [List.map_cons, List.mem_cons, not_or] at h
      simp only [lookupKey, if_neg (fun hh : k₀ = k => h.1 (hh ▸ rfl))]
      exact ih h.2

theorem keys_eraseKey_sublist (k : String) (l : List (String × α)) :
    ((eraseKey k l).map Prod.fst).Sublist (l.map Prod.fst) := by
  induction l with
  | nil => simp [eraseKey]
  | cons e rest ih =>
      obtain ⟨k₀, v₀⟩ := e
      by_cases h₀ : k₀ = k
      · simp only [eraseKey, if_pos h₀, List.map_cons]
        exact List.Sublist.cons _ (List.Sublist.refl _)
      · simp only [eraseKey, if_neg h₀, List.map_cons]
        exact ih.cons₂ _

theorem not_mem_keys_eraseKey (k : String) (l : List (String × α))
    (h : (l.map Prod.fst).Nodup) : k ∉ (eraseKey k l).map Prod.fst := by
  induction l with
  | nil => simp [eraseKey]
  | cons e rest ih =>
      obtain ⟨k₀, v₀⟩ := e
      simp only [List.map_cons, List.nodup_cons] at h
      by_cases h₀ : k₀ = k
      · subst h₀
        simpa [eraseKey] using h.1
      · simp only [eraseKey, if_neg h₀, List.map_cons, List.mem_cons, not_or]
        exact ⟨fun hh => h₀ (hh ▸ rfl), ih h.2⟩

theorem lookupKey_eraseKey_self (k : String) (l : List (String × α))
    (h : (l.map Prod.fst).Nodup) : lookupKey k (eraseKey k l) = none :=
  lookupKey_eq_none_of_not_mem _ _ (not_mem_keys_eraseKey _ _ h)

theorem mem_lookupKey_of_nodup (k : String) (v : α) (l : List (String × α))
    (hnd : (l.map Prod.fst).Nodup) (hm : (k, v) ∈ l) : lookupKey k l = some v := by
  induction l with
  | nil => simp at hm
  | cons e rest ih =>
      obtain ⟨k₀, v₀⟩ := e
      simp only [List.map_cons, List.nodup_cons] at hnd
      rcases List.mem_cons.mp hm with heq | hmem
      · injection heq with h1 h2
        subst h1
        subst h2
        simp [lookupKey]
      · have hne : k₀ ≠ k := by
          rintro rfl
          exact hnd.1 (List.mem_map.mpr ⟨(k₀, v), hmem, rfl⟩)
        simp only [lookupKey, if_neg hne]
        exact ih hnd.2 hmem

theorem lookupKey_append_of_none (k : String) (l₁ l₂ : List (String × α))
    (h : lookupKey k l₁ = none) : lookupKey k (l₁ ++ l₂) = lookupKey k l₂ := by
  induction l₁ with
  | nil => simp
  | cons e rest ih =>
      obtain ⟨k₀, v₀⟩ := e
      by_cases h₀ : k₀ = k
      · simp [lookupKey, h₀] at h
      · simp only [lookupKey, if_neg h₀] at h
        simpa [lookupKey, h₀] using ih h

theorem lookupKey_append_of_some (k : String) (v : α) (l₁ l₂ : List (String × α))
    (h : lookupKey k l₁ = some v) : lookupKey k (l₁ ++ l₂) = some v := by
  induction l₁ with
  | nil => simp [lookupKey] at h
  | cons e rest ih =>
      obtain ⟨k₀, v₀⟩ := e
      by_cases h₀ : k₀ = k
      · simp only [lookupKey, if_pos h₀] at h
        simpa [lookupKey, h₀] using h
      · simp only [lookupKey, if_neg h₀] at h
        simpa [lookupKey, h₀] using ih h

theorem lookupKey_respawn_self (k : String) (v : α) (l : List (String × α))
    (hnd : (l.map Prod.fst).Nodup) :
    lookupKey k (eraseKey k l ++ [(k, v)]) = some v := by
  rw [lookupKey_append_of_none _ _ _ (lookupKey_eraseKey_self _ _ hnd)]
  simp [lookupKey]

theorem lookupKey_respawn_ne (k x : String) (v : α) (l : List (String × α))
    (hne : k ≠ x) :
    lookupKey k (eraseKey x l ++ [(x, v)]) = lookupKey k l := by
  cases h : lookupKey k (eraseKey x l) with
  | some w =>
      rw [lookupKey_append_of_some _ _ _ _ h]
      rw [lookupKey_eraseKey_ne x k l hne] at h
      exact h.symm
  | none =>
      have hxk : ¬ x = k := fun hh => hne (hh ▸ rfl)
      rw [lookupKey_append_of_none _ _ _ h]
      rw [lookupKey_eraseKey_ne x k l hne] at h
      rw [h]
      simp [lookupKey, hxk]

theorem nodup_keys_respawn (k : String) (v : α) (l : List (String × α))
    (h : (l.map Prod.fst).Nodup) :
    (((eraseKey k l) ++ [(k, v)]).map Prod.fst).Nodup := by
  rw [List.map_append]
  refine List.Nodup.append ((keys_eraseKey_sublist k l).nodup h) (by simp) ?_
  intro a ha hb
  simp only [List.map_cons, List.map_nil, List.mem_singleton] at hb
  subst hb
  exact not_mem_keys_eraseKey _ _ h ha

theorem insertByValueDesc_perm (x : LeaderboardEntry) (l : List LeaderboardEntry) :
    List.Perm (insertByValueDesc x l) (x :: l) := by
  induction l with
  | nil => exact List.Perm.refl _
  | cons y ys ih =>
      by_cases h : y.currentValue > x.currentValue
      · rw [insertByValueDesc, if_pos h]
        exact (ih.cons y).trans (List.Perm.swap x y ys)
      · rw [insertByValueDesc, if_neg h]

theorem sortByValueDesc_perm (l : List LeaderboardEntry) :
    List.Perm (sortByValueDesc l) l := by
  induction l with
  | nil => exact List.Perm.refl _
  | cons y ys ih =>
      exact (insertByValueDesc_perm y (sortByValueDesc ys)).trans (ih.cons y)

theorem rankFrom_map_id (i n : ℕ) (l : List LeaderboardEntry) :
    (rankFrom i n l).map LeaderboardEntry.id = l.map LeaderboardEntry.id := by
  induction l generalizing i with
  | nil => rfl
  | cons e rest ih => simp [rankFrom, ih]

theorem rankFrom_mem (i n : ℕ) (l : List LeaderboardEntry)
    (e : LeaderboardEntry) (he : e ∈ rankFrom i n l) :
    ∃ e₀ ∈ l, e.id = e₀.id ∧ e.name = e₀.name ∧ e.currentValue = e₀.currentValue
      ∧ e.totalReturnPercent = e₀.totalReturnPercent ∧ e.generation = e₀.generation := by
  induction l generalizing i with
  | nil => simp [rankFrom] at he
  | cons e₁ rest ih =>
      rcases List.mem_cons.mp he with heq | hmem
      · subst heq
        exact ⟨e₁, List.mem_cons_self _ _, rfl, rfl, rfl, rfl, rfl⟩
      · obtain ⟨e₀, hm, hf⟩ := ih (i + 1) hmem
        exact ⟨e₀, List.mem_cons_of_mem _ hm, hf⟩

theorem leaderboardRow_some (eng : TradingEngine) (quotes : String → Option ℚ)
    (p : String × AgentRec) (e : LeaderboardEntry)
    (h : leaderboardRow eng quotes p = some e) :
    e.id = p.1 ∧ e.name = p.2.name ∧ e.generation = p.2.generation
      ∧ p.2.active = true := by
  by_cases ha : p.2.active
  · rw [leaderboardRow, if_pos ha] at h
    obtain rfl := Option.some.inj h
    exact ⟨rfl, rfl, rfl, ha⟩
  · rw [leaderboardRow, if_neg ha] at h
    simp at h

theorem row_ids_sublist (eng : TradingEngine) (quotes : String → Option ℚ)
    (l : List (String × AgentRec)) :
    ((l.filterMap (leaderboardRow eng quotes)).map LeaderboardEntry.id).Sublist
      (l.map Prod.fst) := by
  induction l with
  | nil => simp
  | cons p rest ih =>
      cases h : leaderboardRow eng quotes p with
      | none => simpa [List.filterMap_cons, h] using List.Sublist.cons _ ih
      | some e =>
          have hid := (leaderboardRow_some eng quotes p e h).1
          simpa [List.filterMap_cons, h, hid] using ih.cons₂ p.1

theorem getLeaderboard_ids_nodup (st : AgentManagerState)
    (quotes : String → Option ℚ) (hnd : (st.agents.map Prod.fst).Nodup) :
    ((getLeaderboard st quotes).map LeaderboardEntry.id).Nodup := by
  rw [getLeaderboard]
  rw [rankFrom_map_id]
  have hperm := (sortByValueDesc_perm
    (st.agents.filterMap (leaderboardRow st.engine quotes))).map LeaderboardEntry.id
  rw [hperm.nodup_iff]
  exact (row_ids_sublist st.engine quotes st.agents).nodup hnd

theorem getLeaderboard_mem (st : AgentManagerState) (quotes : String → Option ℚ)
    (e : LeaderboardEntry) (he : e ∈ getLeaderboard st quotes) :
    ∃ a, (e.id, a) ∈ st.agents ∧ a.active = true ∧ e.name = a.name
      ∧ e.generation = a.generation := by
  rw [getLeaderboard] at he
  obtain ⟨e₀, he₀, hid, hname, _, _, hgen⟩ := rankFrom_mem _ _ _ _ he
  have he₀m : e₀ ∈ st.agents.filterMap (leaderboardRow st.engine quotes) :=
    (sortByValueDesc_perm _).subset he₀
  obtain ⟨p, hp, hrow⟩ := List.mem_filterMap.mp he₀m
  obtain ⟨hid₀, hname₀, hgen₀, hact⟩ := leaderboardRow_some _ _ _ _ hrow
  refine ⟨p.2, ?_, hact, hname.trans hname₀, hgen.trans hgen₀⟩
  have : e.id = p.1 := hid.trans hid₀
  rw [this]
  exact hp

theorem eliminateAgent_spec (st : AgentManagerState) (loser : LeaderboardEntry)
    (a : AgentRec) (t : AgentTemplate)
    (ha : lookupKey loser.id st.agents = some a)
    (ht : lookupKey loser.id AGENT_TEMPLATES = some t)
    (hnd : (st.engine.portfolios.map Prod.fst).Nodup) :
    eliminateAgent st loser = some
      ({ name := a.name, generation := a.generation,
         finalValue := loser.currentValue,
         finalReturn := loser.totalReturnPercent },
       { engine := { portfolios := eraseKey loser.id st.engine.portfolios ++
                       [(loser.id, { cash := 25, positions := [],
                                     startingValue := 25, history := [25] })],
                     trades := st.engine.trades },
         agents := setKey loser.id
           { name := t.name, strategy := t.strategy,
             generation := a.generation + 1, active := true, kills := 0 }
           (eraseKey loser.id st.agents),
         memory := st.memory.clearAgentMemory loser.id,
         graveyard := st.graveyard ++
           [{ agent := a, finalValue := loser.currentValue,
              finalReturn := loser.totalReturnPercent,
              eliminatedRound := st.round,
              memorySummary := st.memory.getMemorySummary loser.id }],
         round := st.round,
         eliminatedLog := st.eliminatedLog }) := by
  have herased : lookupKey loser.id (eraseKey loser.id st.engine.portfolios) = none :=
    lookupKey_eraseKey_self _ _ hnd
  simp only [eliminateAgent, ha, createAgent, ht, initializePortfolio, herased]
  rw [setKey_of_lookup_none _ _ _ herased]

theorem kills_fold_spec (es : List LeaderboardEntry) (st : AgentManagerState)
    (h : ∀ e ∈ es, (lookupKey e.id st.agents).isSome = true) :
    ∃ st2, es.foldlM (fun s e => bumpKills s e.id) st = some st2
      ∧ st2.engine = st.engine
      ∧ st2.round = st.round
      ∧ st2.eliminatedLog = st.eliminatedLog
      ∧ ∀ id, id ∉ es.map LeaderboardEntry.id →
          lookupKey id st2.agents = lookupKey id st.agents := by
  induction es generalizing st with
  | nil => exact ⟨st, rfl, rfl, rfl, rfl, fun _ _ => rfl⟩
  | cons e rest ih =>
      obtain ⟨a, ha⟩ : ∃ a, lookupKey e.id st.agents = some a :=
        Option.isSome_iff_exists.mp (h e (List.mem_cons_self _ _))
      have hstep : bumpKills st e.id = some { st with agents := setKey e.id { a with kills := a.kills + 2 } st.agents } := by
        simp [bumpKills, ha]
      have htail : ∀ x ∈ rest, (lookupKey x.id (setKey e.id { a with kills := a.kills + 2 } st.agents)).isSome = true := by
        intro x hx
        by_cases hxe : x.id = e.id
        · rw [hxe, lookupKey_setKey_self]
          rfl
        · rw [lookupKey_setKey_ne _ _ _ _ hxe]
          exact h x (List.mem_cons_of_mem _ hx)
      obtain ⟨st2, hfold, heng, hround, hlog, hagents⟩ :=
        ih { st with agents := setKey e.id { a with kills := a.kills + 2 } st.agents } htail
      refine ⟨st2, ?_, heng, hround, hlog, ?_⟩
      · rw [List.foldlM_cons, hstep]
        simpa using hfold
      · intro id hid
        simp only [List.map_cons, List.mem_cons, not_or] at hid
        rw [hagents id hid.2]
        exact lookupKey_setKey_ne _ _ _ _ hid.1

theorem eliminateAgent_eq_respawn (st : AgentManagerState)
    (loser : LeaderboardEntry) (a : AgentRec) (t : AgentTemplate)
    (ha : lookupKey loser.id st.agents = some a)
    (ht : lookupKey loser.id AGENT_TEMPLATES = some t)
    (hnd : (st.engine.portfolios.map Prod.fst).Nodup) :
    eliminateAgent st loser = some
      ({ name := a.name, generation := a.generation,
         finalValue := loser.currentValue,
         finalReturn := loser.totalReturnPercent },
       respawnState st loser a t) :=
  eliminateAgent_spec st loser a t ha ht hnd

theorem elim2_spec (st : AgentManagerState) (x y : LeaderboardEntry)
    (ax ay : AgentRec) (tx ty : AgentTemplate)
    (hax : lookupKey x.id st.agents = some ax)
    (hay : lookupKey y.id st.agents = some ay)
    (htx : lookupKey x.id AGENT_TEMPLATES = some tx)
    (hty : lookupKey y.id AGENT_TEMPLATES = some ty)
    (hne : x.id ≠ y.id)
    (hndP : (st.engine.portfolios.map Prod.fst).Nodup) :
    ∃ st2,
      [x, y].foldlM
        (fun acc loser => (eliminateAgent acc.2 loser).map
          (fun r => (acc.1 ++ [r.1], r.2)))
        (([] : List ElimRec), st) = some
        ([{ name := ax.name, generation := ax.generation,
            finalValue := x.currentValue, finalReturn := x.totalReturnPercent },
          { name := ay.name, generation := ay.generation,
            finalValue := y.currentValue, finalReturn := y.totalReturnPercent }],
         st2)
      ∧ lookupKey x.id st2.agents =
          some { name := tx.name, strategy := tx.strategy,
                 generation := ax.generation + 1, active := true, kills := 0 }
      ∧ lookupKey y.id st2.agents =
          some { name := ty.name, strategy := ty.strategy,
                 generation := ay.generation + 1, active := true, kills := 0 }
      ∧ lookupKey x.id st2.engine.portfolios =
          some { cash := 25, positions := [], startingValue := 25, history := [25] }
      ∧ lookupKey y.id st2.engine.portfolios =
          some { cash := 25, positions := [], startingValue := 25, history := [25] }
      ∧ (∀ id, id ≠ x.id → id ≠ y.id →
          lookupKey id st2.engine.portfolios = lookupKey id st.engine.portfolios)
      ∧ (∀ id, id ≠ x.id → id ≠ y.id →
          lookupKey id st2.agents = lookupKey id st.agents)
      ∧ st2.round = st.round
      ∧ st2.eliminatedLog = st.eliminatedLog := by
  have hyne : y.id ≠ x.id := Ne.symm hne
  have h1 := eliminateAgent_eq_respawn st x ax tx hax htx hndP
  have hay1 : lookupKey y.id (respawnState st x ax tx).agents = some ay := by
    simp only [respawnState]
    rw [lookupKey_setKey_ne _ _ _ _ hyne, lookupKey_eraseKey_ne _ _ _ hyne]
    exact hay
  have hnd1 : ((respawnState st x ax tx).engine.portfolios.map Prod.fst).Nodup := by
    simp only [respawnState]
    exact nodup_keys_respawn _ _ _ hndP
  have h2 := eliminateAgent_eq_respawn (respawnState st x ax tx) y ay ty hay1 hty hnd1
  refine ⟨respawnState (respawnState st x ax tx) y ay ty, ?_, ?_, ?_, ?_, ?_, ?_, ?_, ?_, ?_⟩
  · simp [List.foldlM_cons, List.foldlM_nil, h1, h2]
  · show lookupKey x.id (setKey y.id _ (eraseKey y.id (respawnState st x ax tx).agents)) = _
    rw [lookupKey_setKey_ne _ _ _ _ hne, lookupKey_eraseKey_ne _ _ _ hne]
    show lookupKey x.id (setKey x.id _ (eraseKey x.id st.agents)) = _
    rw [lookupKey_setKey_self]
  · show lookupKey y.id (setKey y.id _ (eraseKey y.id (respawnState st x ax tx).agents)) = _
    rw [lookupKey_setKey_self]
  · show lookupKey x.id (eraseKey y.id (respawnState st x ax tx).engine.portfolios ++ [(y.id, _)]) = _
    rw [lookupKey_respawn_ne _ _ _ _ hne]
    show lookupKey x.id (eraseKey x.id st.engine.portfolios ++ [(x.id, _)]) = _
    rw [lookupKey_respawn_self _ _ _ hndP]
  · show lookupKey y.id (eraseKey y.id (respawnState st x ax tx).engine.portfolios ++ [(y.id, _)]) = _
    rw [lookupKey_respawn_self _ _ _ hnd1]
  · intro id hidx hidy
    show lookupKey id (eraseKey y.id (respawnState st x ax tx).engine.portfolios ++ [(y.id, _)]) = _
    rw [lookupKey_respawn_ne _ _ _ _ hidy]
    show lookupKey id (eraseKey x.id st.engine.portfolios ++ [(x.id, _)]) = _
    rw [lookupKey_respawn_ne _ _ _ _ hidx]
  · intro id hidx hidy
    show lookupKey id (setKey y.id _ (eraseKey y.id (respawnState st x ax tx).agents)) = _
    rw [lookupKey_setKey_ne _ _ _ _ hidy, lookupKey_eraseKey_ne _ _ _ hidy]
    show lookupKey id (setKey x.id _ (eraseKey x.id st.agents)) = _
    rw [lookupKey_setKey_ne _ _ _ _ hidx, lookupKey_eraseKey_ne _ _ _ hidx]
  · rfl
  · rfl

/-- C8: with at least 3 active agents, `runElimination` removes exactly the
two lowest entries of the descending-value leaderboard, recreates each under
the same key with generation + 1 and a fresh $25 seed portfolio, leaves every
other agent's portfolio untouched, and advances the round; with fewer than 3
active agents it is a no-op returning an empty eliminated list.  (Hypotheses:
JavaScript objects cannot hold duplicate keys, and every roster id is one of
the fixed agent templates.) -/
theorem runElimination_spec (st : AgentManagerState) (quotes : String → Option ℚ)
    (hndA : (st.agents.map Prod.fst).Nodup)
    (hndP : (st.engine.portfolios.map Prod.fst).Nodup)
    (hT : ∀ e ∈ st.agents, (lookupKey e.1 AGENT_TEMPLATES).isSome = true) :
    ((getLeaderboard st quotes).length < 3 →
        runElimination st quotes = some ([], none, st))
  ∧ (3 ≤ (getLeaderboard st quotes).length →
      ∃ x y st',
        (getLeaderboard st quotes).drop ((getLeaderboard st quotes).length - 2)
            = [x, y]
        ∧ runElimination st quotes = some
            ([{ name := x.name, generation := x.generation,
                finalValue := x.currentValue,
                finalReturn := x.totalReturnPercent },
              { name := y.name, generation := y.generation,
                finalValue := y.currentValue,
                finalReturn := y.totalReturnPercent }],
             some (st.round + 1), st')
        ∧ (∃ tx, lookupKey x.id AGENT_TEMPLATES = some tx
            ∧ lookupKey x.id st'.agents =
                some { name := tx.name, strategy := tx.strategy,
                       generation := x.generation + 1, active := true,
                       kills := 0 })
        ∧ (∃ ty, lookupKey y.id AGENT_TEMPLATES = some ty
            ∧ lookupKey y.id st'.agents =
                some { name := ty.name, strategy := ty.strategy,
                       generation := y.generation + 1, active := true,
                       kills := 0 })
        ∧ lookupKey x.id st'.engine.portfolios =
            some { cash := 25, positions := [], startingValue := 25,
                   history := [25] }
        ∧ lookupKey y.id st'.engine.portfolios =
            some { cash := 25, positions := [], startingValue := 25,
                   history := [25] }
        ∧ (∀ id, id ≠ x.id → id ≠ y.id →
            lookupKey id st'.engine.portfolios =
              lookupKey id st.engine.portfolios)
        ∧ st'.round = st.round + 1) := by
  constructor
  · intro h
    simp [runElimination, h]
  · intro hlen
    have hnot : ¬ (getLeaderboard st quotes).length < 3 := not_lt.mpr hlen
    have hdroplen :
        ((getLeaderboard st quotes).drop
          ((getLeaderboard st quotes).length - 2)).length = 2 := by
      rw [List.length_drop]
      omega
    obtain ⟨x, y, hxy⟩ := List.length_eq_two.mp hdroplen
    have hxmem : x ∈ getLeaderboard st quotes :=
      List.drop_subset _ _ (by rw [hxy]; exact List.mem_cons_self _ _)
    have hymem : y ∈ getLeaderboard st quotes :=
      List.drop_subset _ _
        (by rw [hxy]; exact List.mem_cons_of_mem _ (List.mem_cons_self _ _))
    obtain ⟨ax, haxm, _, hxname, hxgen⟩ := getLeaderboard_mem st quotes x hxmem
    obtain ⟨ay, haym, _, hyname, hygen⟩ := getLeaderboard_mem st quotes y hymem
    have hax : lookupKey x.id st.agents = some ax :=
      mem_lookupKey_of_nodup _ _ _ hndA haxm
    have hay : lookupKey y.id st.agents = some ay :=
      mem_lookupKey_of_nodup _ _ _ hndA haym
    obtain ⟨tx, htx⟩ : ∃ tx, lookupKey x.id AGENT_TEMPLATES = some tx :=
      Option.isSome_iff_exists.mp (hT (x.id, ax) haxm)
    obtain ⟨ty, hty⟩ : ∃ ty, lookupKey y.id AGENT_TEMPLATES = some ty :=
      Option.isSome_iff_exists.mp (hT (y.id, ay) haym)
    have hids := getLeaderboard_ids_nodup st quotes hndA
    have hsplit :
        (getLeaderboard st quotes).take ((getLeaderboard st quotes).length - 2)
          ++ [x, y] = getLeaderboard st quotes := by
      conv_rhs => rw [← List.take_append_drop
        ((getLeaderboard st quotes).length - 2) (getLeaderboard st quotes)]
      rw [hxy]
    have hids2 :
        (((getLeaderboard st quotes).take
            ((getLeaderboard st quotes).length - 2)).map LeaderboardEntry.id
          ++ [x.id, y.id]).Nodup := by
      rw [← hsplit, List.map_append] at hids
      simpa using hids
    have hxyne : x.id ≠ y.id := by
      have h2 := (List.nodup_append.mp hids2).2.1
      simp only [List.nodup_cons, List.mem_singleton, List.not_mem_nil,
        not_false_eq_true, List.nodup_nil, and_true] at h2
      exact h2
    have hdisj := (List.nodup_append.mp hids2).2.2
    obtain ⟨st2, hfold, hlx, hly, hpx, hpy, hpother, haother, hround2, hlog2⟩ :=
      elim2_spec st x y ax ay tx ty hax hay htx hty hxyne hndP
    have hsurv : ∀ e ∈ (getLeaderboard st quotes).take
        ((getLeaderboard st quotes).length - 2),
        (lookupKey e.id st2.agents).isSome = true := by
      intro e he
      have heid := List.mem_map_of_mem LeaderboardEntry.id he
      have hnot2 : e.id ∉ [x.id, y.id] := hdisj heid
      simp only [List.mem_cons, List.mem_singleton, List.not_mem_nil, not_or,
        or_false] at hnot2
      rw [haother e.id hnot2.1 hnot2.2]
      have hemem : e ∈ getLeaderboard st quotes := List.take_subset _ _ he
      obtain ⟨ae, haem, _, _, _⟩ := getLeaderboard_mem st quotes e hemem
      rw [mem_lookupKey_of_nodup _ _ _ hndA haem]
      rfl
    obtain ⟨stF, hkf, hengF, hroundF, hlogF, hagF⟩ :=
      kills_fold_spec _ st2 hsurv
    have hxnotin : x.id ∉ ((getLeaderboard st quotes).take
        ((getLeaderboard st quotes).length - 2)).map LeaderboardEntry.id :=
      fun h => hdisj h (List.mem_cons_self _ _)
    have hynotin : y.id ∉ ((getLeaderboard st quotes).take
        ((getLeaderboard st quotes).length - 2)).map LeaderboardEntry.id :=
      fun h => hdisj h (List.mem_cons_of_mem _ (List.mem_cons_self _ _))
    have hrunEq : runElimination st quotes =
        match ((getLeaderboard st quotes).take
            ((getLeaderboard st quotes).length - 2)).foldlM
            (fun s e => bumpKills s e.id) st2 with
        | none => none
        | some st2' => some
            ([{ name := ax.name, generation := ax.generation,
                finalValue := x.currentValue,
                finalReturn := x.totalReturnPercent },
              { name := ay.name, generation := ay.generation,
                finalValue := y.currentValue,
                finalReturn := y.totalReturnPercent }],
             some (st2'.round + 1),
             { st2' with
               round := st2'.round + 1,
               eliminatedLog := st2'.eliminatedLog ++
                 [{ name := ax.name, generation := ax.generation,
                    finalValue := x.currentValue,
                    finalReturn := x.totalReturnPercent },
                  { name := ay.name, generation := ay.generation,
                    finalValue := y.currentValue,
                    finalReturn := y.totalReturnPercent }] }) := by
      simp only [runElimination]
      rw [if_neg hnot, hxy, hfold]
    have hrun : runElimination st quotes = some
        ([{ name := ax.name, generation := ax.generation,
            finalValue := x.currentValue,
            finalReturn := x.totalReturnPercent },
          { name := ay.name, generation := ay.generation,
            finalValue := y.currentValue,
            finalReturn := y.totalReturnPercent }],
         some (stF.round + 1),
         { stF with
           round := stF.round + 1,
           eliminatedLog := stF.eliminatedLog ++
             [{ name := ax.name, generation := ax.generation,
                finalValue := x.currentValue,
                finalReturn := x.totalReturnPercent },
              { name := ay.name, generation := ay.generation,
                finalValue := y.currentValue,
                finalReturn := y.totalReturnPercent }] }) := by
      rw [hrunEq, hkf]
    have hroundStF : stF.round = st.round := hroundF.trans hround2
    refine ⟨x, y,
      { stF with
        round := stF.round + 1,
        eliminatedLog := stF.eliminatedLog ++
          [{ name := ax.name, generation := ax.generation,
             finalValue := x.currentValue,
             finalReturn := x.totalReturnPercent },
           { name := ay.name, generation := ay.generation,
             finalValue := y.currentValue,
             finalReturn := y.totalReturnPercent }] },
      hxy, ?_, ?_, ?_, ?_, ?_, ?_, ?_⟩
    · rw [hrun, ← hxname, ← hxgen, ← hyname, ← hygen, hroundStF]
    · refine ⟨tx, htx, ?_⟩
      show lookupKey x.id stF.agents = _
      rw [hagF x.id hxnotin, hlx, ← hxgen]
    · refine ⟨ty, hty, ?_⟩
      show lookupKey y.id stF.agents = _
      rw [hagF y.id hynotin, hly, ← hygen]
    · show lookupKey x.id stF.engine.portfolios = _
      rw [hengF]
      exact hpx
    · show lookupKey y.id stF.engine.portfolios = _
      rw [hengF]
      exact hpy
    · intro id hidx hidy
      show lookupKey id stF.engine.portfolios = _
      rw [hengF]
      exact hpother id hidx hidy
    · show stF.round + 1 = st.round + 1
      rw [hroundStF]

/-- Witness for C8: on the concrete three-agent arena (values 100, 50, 10,
all quotes failing so valuation falls back to cash), the elimination removes
the bottom two leaderboard rows, respawns them at generation + 1 with fresh
$25 portfolios, leaves the survivor's portfolio alone and advances the
round. -/
theorem runElimination_spec_witness :
    ∃ x y st',
      (getLeaderboard arenaState (fun _ => none)).drop
          ((getLeaderboard arenaState (fun _ => none)).length - 2) = [x, y]
      ∧ runElimination arenaState (fun _ => none) = some
          ([{ name := x.name, generation := x.generation,
              finalValue := x.currentValue,
              finalReturn := x.totalReturnPercent },
            { name := y.name, generation := y.generation,
              finalValue := y.currentValue,
              finalReturn := y.totalReturnPercent }],
           some (arenaState.round + 1), st')
      ∧ (∃ tx, lookupKey x.id AGENT_TEMPLATES = some tx
          ∧ lookupKey x.id st'.agents =
              some { name := tx.name, strategy := tx.strategy,
                     generation := x.generation + 1, active := true,
                     kills := 0 })
      ∧ (∃ ty, lookupKey y.id AGENT_TEMPLATES = some ty
          ∧ lookupKey y.id st'.agents =
              some { name := ty.name, strategy := ty.strategy,
                     generation := y.generation + 1, active := true,
                     kills := 0 })
      ∧ lookupKey x.id st'.engine.portfolios =
          some { cash := 25, positions := [], startingValue := 25,
                 history := [25] }
      ∧ lookupKey y.id st'.engine.portfolios =
          some { cash := 25, positions := [], startingValue := 25,
                 history := [25] }
      ∧ (∀ id, id ≠ x.id → id ≠ y.id →
          lookupKey id st'.engine.portfolios =
            lookupKey id arenaState.engine.portfolios)
      ∧ st'.round = arenaState.round + 1 :=
  (runElimination_spec arenaState (fun _ => none) (by decide) (by decide)
      (by decide)).2
    (by norm_num [getLeaderboard, sortByValueDesc, insertByValueDesc,
      rankFrom, leaderboardRow, calculatePortfolioValue, arenaState,
      arenaEngine, lookupKey])

end StockRacer
